import Mathlib

/-!
# Urho3D audio engine (Engine/Audio/Audio.cpp)

A shallow embedding of the mixing core of `Audio`: the chunked mixing loop and the
sample conversion of `Audio::MixOutput`, the reverse update pass of `Audio::Update`,
the device lifecycle (`SetMode`, `Play`, `Stop`, `Release`, `IsInitialized`) for both
output backends, the master gain accessors and the cursor arithmetic of the DirectSound
playback thread.

Conventions.
* `unsigned` and `DWORD` values are naturals below `2 ^ 32`; `int` values are integers
  in `[-2 ^ 31, 2 ^ 31)`. Conversions between the two and wrapping arithmetic are
  written out (`toUnsigned`, `toInt`).
* The accumulation buffer `clipBuffer_` is memory indexed from `clipBuffer_.GetPtr()`:
  a function from slot index to the `int` stored there. A pointer into it is a slot
  index. The pointer `clipBuffer_` itself is `none` (null) or `some n` (an array of
  `n` ints). Whether the slots touched lie inside the array is a statement of its own,
  on the bounds of the accesses. What a source adds to a slot is the source's own
  arithmetic.
* What the platform backend answers (DirectSound, SDL, the thread start) is an input.
* `SoundSource::Mix` and `SoundSource::Update` belong to another class; the first is a
  parameter, the second is described by whether the source deregisters itself.
-/

namespace Urho3D

/-! ## Machine integers -/

/-- Conversion of an integer value to `unsigned` (32 bits, modular). -/
def toUnsigned (x : Int) : Nat := (x % 4294967296).toNat

/-- Conversion `(int)x` of an unsigned value; two's complement. -/
def toInt (x : Nat) : Int :=
  if x % 4294967296 < 2147483648 then ((x % 4294967296 : Nat) : Int)
  else ((x % 4294967296 : Nat) : Int) - 4294967296

/-- Result of an `int` operation whose mathematical value is `x`, wrapped to 32 bits. -/
def wrapInt (x : Int) : Int := toInt (toUnsigned x)

/-- Modelled from the spec: `Min` of MathDefs.h, the smaller of two values. -/
def Min (lhs rhs : Int) : Int := if lhs < rhs then lhs else rhs

/-- Modelled from the spec: `Max` of MathDefs.h, the larger of two values. -/
def Max (lhs rhs : Int) : Int := if lhs > rhs then lhs else rhs

/-- Modelled from the spec: `Clamp` of MathDefs.h, the value limited to `[min, max]`. -/
def Clamp (value min max : Int) : Int :=
  if value < min then min else if value > max then max else value

/-! ## Engine state -/

/-- The members of `Audio` (and of `AudioImpl`). `S` is the type of a sound source
reference, `F` the type of a gain value (`float`). -/
structure Audio (S F : Type) where
  /-- DirectSound interface exists: `impl_->dsObject_ != 0`. -/
  dsObject_ : Bool
  /-- DirectSound buffer exists: `impl_->dsBuffer_ != 0`. -/
  dsBuffer_ : Bool
  playing_ : Bool
  bufferSamples_ : Nat
  bufferSize_ : Nat
  sampleSize_ : Nat
  mixRate_ : Int
  sixteenBit_ : Bool
  stereo_ : Bool
  interpolate_ : Bool
  /-- The array `masterGain_[MAX_SOUND_TYPES]`, by index. -/
  masterGain_ : Nat → F
  /-- The pointer `clipBuffer_`: null, or an array of that many ints. -/
  clipBuffer_ : Option Nat
  /-- Contents of the memory at `clipBuffer_.GetPtr()`, by slot. -/
  clipData : Nat → Int
  soundSources_ : List S

/-- Type of `SoundSource::Mix(dest, samples, mixRate, stereo, interpolate)`: given the
source, the accumulator memory, the slot `dest` points at and the remaining arguments,
the source afterwards and the memory afterwards. -/
abbrev MixFn (S : Type) := S → (Nat → Int) → Nat → Nat → Int → Bool → Bool → S × (Nat → Int)

/-! ## Audio::MixOutput -/

/-- The inner loop of `MixOutput`: every source of `soundSources_` mixes
`currentSamples` frames at `clipPtr`, in registry order. -/
def mixSources {S : Type} (Mix : MixFn S) (clipPtr currentSamples : Nat) (mixRate : Int)
    (stereo interpolate : Bool) : List S → (Nat → Int) → List S × (Nat → Int)
  | [], mem => ([], mem)
  | s :: rest, mem =>
    let r := Mix s mem clipPtr currentSamples mixRate stereo interpolate
    let r2 := mixSources Mix clipPtr currentSamples mixRate stereo interpolate rest r.2
    (r.1 :: r2.1, r2.2)

/-- State of the chunk loop of `MixOutput`, with the record of the requests made. -/
structure MixLoopState (S : Type) where
  sources : List S
  clip : Nat → Int
  /-- Slot `clipPtr` points at. -/
  clipPtr : Nat
  /-- One entry per pass of the loop: the slot handed to the sources and the frame
  count asked of each of them. -/
  requests : List (Nat × Nat)

/-- The value `maxSamples = mixRate_ * DECODE_BUFFER_LENGTH / 1000 / 4` of `MixOutput`.
`DECODE_BUFFER_LENGTH` is an `int` constant of SoundSource.h, taken as a parameter; the
product is an `int` product (32 bits), the divisions truncate, the result is stored in
an `unsigned`. Where the product does not fit an `int` the C++ result is undefined; the
two's complement wrap stands for it here, and the statements either assume that the
product fits or constrain `maxSamples` itself. -/
def maxSamples (mixRate_ DECODE_BUFFER_LENGTH : Int) : Nat :=
  toUnsigned (((wrapInt (mixRate_ * DECODE_BUFFER_LENGTH)).tdiv 1000).tdiv 4)

/-- The loop `while (mixSamples) { ... }` of `MixOutput`. One unit of fuel per pass;
`none` when the fuel runs out before `mixSamples` reaches zero. -/
def mixLoop {S : Type} (Mix : MixFn S) (mixRate : Int) (stereo interpolate : Bool)
    (maxSamples : Nat) : Nat → Nat → MixLoopState S → Option (MixLoopState S)
  | 0, mixSamples, st => if mixSamples = 0 then some st else none
  | fuel + 1, mixSamples, st =>
    if mixSamples = 0 then some st
    else
      let currentSamples := toUnsigned (Min (toInt maxSamples) (toInt mixSamples))
      let r := mixSources Mix st.clipPtr currentSamples mixRate stereo interpolate
        st.sources st.clip
      let mixSamples2 := (mixSamples + 4294967296 - currentSamples) % 4294967296
      let clipPtr2 :=
        if stereo then st.clipPtr + (currentSamples * 2) % 4294967296
        else st.clipPtr + currentSamples
      mixLoop Mix mixRate stereo interpolate maxSamples fuel mixSamples2
        ⟨r.1, r.2, clipPtr2, st.requests ++ [(st.clipPtr, currentSamples)]⟩

/-- The 16-bit conversion of one accumulated sample. -/
def convert16 (sample : Int) : Int := Clamp sample (-32768) 32767

/-- The 8-bit conversion of one accumulated sample. -/
def convert8 (sample : Int) : Int := Clamp ((sample >>> (8 : Nat)) + 128) 0 255

/-- What one call of `MixOutput` leaves behind. -/
structure MixOutputResult (S : Type) where
  sources : List S
  clip : Nat → Int
  /-- Number of accumulator slots zeroed at the start and converted at the end. -/
  clipSamples : Nat
  /-- Final slot of `clipPtr` after the chunk loop. -/
  clipPtr : Nat
  requests : List (Nat × Nat)
  /-- The samples written through `destPtr`, in order: shorts in 16-bit mode, unsigned
  chars in 8-bit mode. -/
  dest : List Int

/-- Frame count `mixSamples` that `MixOutput` derives from the byte count. -/
def mixSamplesOf (stereo_ sixteenBit_ : Bool) (bytes : Nat) : Nat :=
  let mixSamples := if stereo_ then bytes >>> 1 else bytes
  if sixteenBit_ then mixSamples >>> 1 else mixSamples

/-- Slot count `clipSamples` that `MixOutput` derives from the byte count. -/
def clipSamplesOf (sixteenBit_ : Bool) (bytes : Nat) : Nat :=
  if sixteenBit_ then bytes >>> 1 else bytes

/-- `Audio::MixOutput(dest, bytes)`. The `memset` zeroes the first `clipSamples` slots
(the byte count `clipSamples * sizeof(int)` is taken in `size_t`, wide enough for the
buffer), the chunk loop lets the sources mix, the last loop converts the first
`clipSamples` slots into the destination. -/
def MixOutput {S F : Type} (DECODE_BUFFER_LENGTH : Int) (Mix : MixFn S) (a : Audio S F)
    (bytes fuel : Nat) : Option (MixOutputResult S) :=
  let mixSamples := mixSamplesOf a.stereo_ a.sixteenBit_ bytes
  let clipSamples := clipSamplesOf a.sixteenBit_ bytes
  let cleared : Nat → Int := fun i => if i < clipSamples then 0 else a.clipData i
  match mixLoop Mix a.mixRate_ a.stereo_ a.interpolate_
      (maxSamples a.mixRate_ DECODE_BUFFER_LENGTH) fuel mixSamples
      ⟨a.soundSources_, cleared, 0, []⟩ with
  | none => none
  | some r =>
    some
      { sources := r.sources
        clip := r.clip
        clipSamples := clipSamples
        clipPtr := r.clipPtr
        requests := r.requests
        dest := (List.range clipSamples).map
          (fun i => if a.sixteenBit_ then convert16 (r.clip i) else convert8 (r.clip i)) }

/-- Bytes of the destination written by a call: one per sample in 8-bit mode, two per
sample in 16-bit mode. -/
def destBytesWritten {S : Type} (sixteenBit_ : Bool) (r : MixOutputResult S) : Nat :=
  r.dest.length * (if sixteenBit_ then 2 else 1)

/-- Accumulator slots per frame: 2 in stereo, 1 in mono. -/
def channelsOf (stereo : Bool) : Nat := if stereo then 2 else 1

/-- The caller-side chunking the spec compares `MixOutput` with: the same frames mixed
through one `Mix` round per entry of `chunks`, the caller advancing the cursor by the
frames of each round. -/
def mixByChunks {S : Type} (Mix : MixFn S) (mixRate : Int) (stereo interpolate : Bool) :
    List Nat → MixLoopState S → MixLoopState S
  | [], st => st
  | c :: cs, st =>
    let r := mixSources Mix st.clipPtr c mixRate stereo interpolate st.sources st.clip
    mixByChunks Mix mixRate stereo interpolate cs
      ⟨r.1, r.2, st.clipPtr + c * channelsOf stereo, st.requests ++ [(st.clipPtr, c)]⟩

/-- The output of the spec's comparison run: clear, mix by the caller's `chunks`,
convert. -/
def MixOutputChunked {S F : Type} (Mix : MixFn S) (a : Audio S F) (bytes : Nat)
    (chunks : List Nat) : MixOutputResult S :=
  let clipSamples := clipSamplesOf a.sixteenBit_ bytes
  let cleared : Nat → Int := fun i => if i < clipSamples then 0 else a.clipData i
  let r := mixByChunks Mix a.mixRate_ a.stereo_ a.interpolate_ chunks
    ⟨a.soundSources_, cleared, 0, []⟩
  { sources := r.sources
    clip := r.clip
    clipSamples := clipSamples
    clipPtr := r.clipPtr
    requests := r.requests
    dest := (List.range clipSamples).map
      (fun i => if a.sixteenBit_ then convert16 (r.clip i) else convert8 (r.clip i)) }

/-- What a source that adds the values `vals` from slot `dest` on adds to slot `i`. -/
def contribution (dest : Nat) (vals : List Int) (i : Nat) : Int :=
  if dest ≤ i then vals.getD (i - dest) 0 else 0

/-- Memory after a source has added the values `vals` to the slots from `dest` on. -/
def addAt (mem : Nat → Int) (dest : Nat) (vals : List Int) : Nat → Int :=
  fun i => mem i + contribution dest vals i

/-! ## Source registry and Audio::Update -/

/-- `Audio::AddSoundSource`: the reference is pushed at the end. -/
def AddSoundSource {S F : Type} (channel : S) (a : Audio S F) : Audio S F :=
  { a with soundSources_ := a.soundSources_ ++ [channel] }

/-- The loop of `RemoveSoundSource`: the first entry equal to `channel` is erased. -/
def eraseFirst {S : Type} [DecidableEq S] (channel : S) : List S → List S
  | [] => []
  | x :: xs => if x = channel then xs else x :: eraseFirst channel xs

/-- `Audio::RemoveSoundSource`. -/
def RemoveSoundSource {S F : Type} [DecidableEq S] (channel : S) (a : Audio S F) :
    Audio S F :=
  { a with soundSources_ := eraseFirst channel a.soundSources_ }

/-- The loop `for (unsigned i = Size() - 1; i < Size(); --i)` of `Audio::Update` from
index `i` on. `W` is whatever the sources can change, `reg` reads the registry out of
it, `srcUpdate` is `SoundSource::Update`. One unit of fuel per pass. -/
def updateLoop {S W : Type} (srcUpdate : S → W → W) (reg : W → List S) :
    Nat → Nat → W → Option W
  | 0, i, w => if i < (reg w).length then none else some w
  | fuel + 1, i, w =>
    if h : i < (reg w).length then
      updateLoop srcUpdate reg fuel ((i + 4294967295) % 4294967296)
        (srcUpdate ((reg w).get ⟨i, h⟩) w)
    else some w

/-- `Audio::Update(timeStep)`; the time step is inside `srcUpdate`. -/
def Update {S W : Type} (srcUpdate : S → W → W) (reg : W → List S) (fuel : Nat) (w : W) :
    Option W :=
  updateLoop srcUpdate reg fuel (((reg w).length + 4294967295) % 4294967296) w

/-- The engine together with the record of the `SoundSource::Update` calls made. -/
structure UpdateWorld (S F : Type) where
  audio : Audio S F
  /-- Sources whose `Update` has run, in the order of the calls. -/
  updated : List S

/-- A `SoundSource::Update` that deregisters the source itself when `removes` says so
(and touches the registry in no other way). -/
def selfRemovingUpdate {S F : Type} [DecidableEq S] (removes : S → Bool) (s : S)
    (w : UpdateWorld S F) : UpdateWorld S F :=
  let w1 : UpdateWorld S F := { w with updated := w.updated ++ [s] }
  if removes s then { w1 with audio := RemoveSoundSource s w1.audio } else w1

/-! ## Device lifecycle -/

/-- What the platform answers during `SetMode` and `Play`. -/
structure Backend where
  /-- `DirectSoundCreate` returns `DS_OK`. -/
  createOk : Bool
  /-- `SetCooperativeLevel` returns `DS_OK`. -/
  coopOk : Bool
  /-- `GetCaps` returns `DS_OK`. -/
  capsOk : Bool
  /-- `dsCaps.dwFlags & (DSCAPS_SECONDARY16BIT|DSCAPS_PRIMARY16BIT)` is non-zero. -/
  caps16Bit : Bool
  /-- `dsCaps.dwFlags & (DSCAPS_SECONDARYSTEREO|DSCAPS_PRIMARYSTEREO)` is non-zero. -/
  capsStereo : Bool
  /-- `CreateSoundBuffer` returns `DS_OK`. -/
  createBufferOk : Bool
  /-- `Thread::Start()` returns true. -/
  startOk : Bool
  /-- `SDL_OpenAudio` returns 0. -/
  openOk : Bool
  obtainedFreq : Int
  obtainedFormat : Nat
  obtainedChannels : Nat
  obtainedSamples : Nat

def AUDIO_U8 : Nat := 0x0008
def AUDIO_S16LSB : Nat := 0x8010
def AUDIO_S16MSB : Nat := 0x9010
/-- Native byte order; little endian here. The test in `SetMode` accepts both orders. -/
def AUDIO_S16SYS : Nat := AUDIO_S16LSB

/-- The constructor `Audio::Audio`. The members it does not initialise (`mixRate_`,
`sixteenBit_`, `stereo_`, `interpolate_`) keep what `raw` holds. -/
def construct {S F : Type} (MAX_SOUND_TYPES : Nat) (one : F) (raw : Audio S F) : Audio S F :=
  { raw with
    dsObject_ := false
    dsBuffer_ := false
    playing_ := false
    bufferSamples_ := 0
    bufferSize_ := 0
    sampleSize_ := 0
    masterGain_ := fun i => if i < MAX_SOUND_TYPES then one else raw.masterGain_ i
    clipBuffer_ := none
    soundSources_ := [] }

/-- `Audio::Stop`: the thread is stopped or the device paused; `playing_` is cleared. -/
def Stop {S F : Type} (a : Audio S F) : Audio S F := { a with playing_ := false }

/-- `Audio::Release`; `useSDL` is the build switch `USE_SDL`. -/
def Release {S F : Type} (useSDL : Bool) (a : Audio S F) : Audio S F :=
  let a1 := Stop a
  if useSDL then
    if a1.clipBuffer_.isSome then { a1 with clipBuffer_ := none } else a1
  else
    if a1.dsBuffer_ then { a1 with dsBuffer_ := false } else a1

/-- `Audio::IsInitialized`. -/
def IsInitialized {S F : Type} (useSDL : Bool) (a : Audio S F) : Bool :=
  if useSDL then a.clipBuffer_.isSome else a.dsBuffer_

/-- `Audio::Play`. Clearing the hardware buffer changes no member of the engine. -/
def Play {S F : Type} (useSDL : Bool) (env : Backend) (a : Audio S F) : Bool × Audio S F :=
  if a.playing_ then (true, a)
  else if useSDL then
    if a.clipBuffer_.isNone then (false, a)
    else (true, { a with playing_ := true })
  else
    if !a.dsBuffer_ then (false, a)
    else if !env.startOk then (false, a)
    else (true, { a with playing_ := true })

/-- The buffer size `desired.samples` that the SDL branch of `SetMode` asks for. -/
def desiredSamples (freq : Int) : Nat :=
  if freq ≤ 11025 then 512 else if freq ≤ 22050 then 1024
  else if freq ≤ 44100 then 2048 else 4096

/-- `Audio::SetMode`, both branches of `#ifndef USE_SDL`. The `int` product
`bufferLengthMSec * mixRate` of the DirectSound branch is undefined in C++ where it does
not fit an `int`; the two's complement wrap stands for it here, and the statements on the
buffer sizes assume that it fits. -/
def SetMode {S F : Type} (useSDL : Bool) (env : Backend) (a : Audio S F)
    (bufferLengthMSec mixRate : Int) (sixteenBit stereo interpolate : Bool) :
    Bool × Audio S F :=
  let a1 := Release useSDL a
  if useSDL then
    let a2 : Audio S F := { a1 with playing_ := false }
    if !env.openOk then (false, a2)
    else
      let a3 : Audio S F := { a2 with sampleSize_ := 1 }
      let a4 : Audio S F :=
        if env.obtainedChannels = 2 then
          { a3 with stereo_ := true, sampleSize_ := (a3.sampleSize_ <<< 1) % 4294967296 }
        else a3
      let a5 : Audio S F :=
        if env.obtainedFormat = AUDIO_S16SYS ∨ env.obtainedFormat = AUDIO_S16LSB
            ∨ env.obtainedFormat = AUDIO_S16MSB then
          { a4 with sixteenBit_ := true, sampleSize_ := (a4.sampleSize_ <<< 1) % 4294967296 }
        else a4
      let a6 : Audio S F :=
        { a5 with
          clipBuffer_ := some (env.obtainedSamples * env.obtainedChannels)
          bufferSamples_ := env.obtainedSamples
          bufferSize_ := (env.obtainedSamples * a5.sampleSize_) % 4294967296
          mixRate_ := env.obtainedFreq
          interpolate_ := interpolate }
      Play useSDL env a6
  else
    if !a1.dsObject_ && !env.createOk then (false, a1)
    else
      let a2 : Audio S F := { a1 with dsObject_ := true }
      if !env.coopOk then (false, a2)
      else if !env.capsOk then (false, a2)
      else
        let sixteenBit1 := if !env.caps16Bit then false else sixteenBit
        let stereo1 := if !env.capsStereo then false else stereo
        let bufferLengthMSec1 := Max bufferLengthMSec 50
        let mixRate1 := Clamp mixRate 11025 48000
        let wBitsPerSample : Nat := if sixteenBit1 then 16 else 8
        let nChannels : Nat := if stereo1 then 2 else 1
        let sampleSize : Nat := nChannels * wBitsPerSample / 8
        let numSamples : Nat := toUnsigned ((wrapInt (bufferLengthMSec1 * mixRate1)).tdiv 1000)
        if !env.createBufferOk then (false, a2)
        else
          let a3 : Audio S F :=
            { a2 with
              dsBuffer_ := true
              clipBuffer_ := some ((numSamples * nChannels) % 4294967296)
              bufferSamples_ := numSamples
              bufferSize_ := (numSamples * sampleSize) % 4294967296
              sampleSize_ := sampleSize
              mixRate_ := mixRate1
              sixteenBit_ := sixteenBit1
              stereo_ := stereo1
              interpolate_ := interpolate }
          Play useSDL env a3

/-- Channel count the flags stand for. -/
def channelCount {S F : Type} (a : Audio S F) : Nat := channelsOf a.stereo_

/-- Bytes of one sample of one channel the flags stand for. -/
def bytesPerSample {S F : Type} (a : Audio S F) : Nat := if a.sixteenBit_ then 2 else 1

/-! ## Master gain -/

/-- `Audio::SetMasterGain`. `type` is the value of the `SoundType` enumeration (never
negative), `clamp01` is `Clamp(gain, 0.0f, 1.0f)`. -/
def SetMasterGain {S F : Type} (MAX_SOUND_TYPES : Nat) (clamp01 : F → F) (a : Audio S F)
    (type : Nat) (gain : F) : Audio S F :=
  if type ≥ MAX_SOUND_TYPES then a
  else { a with masterGain_ := fun i => if i = type then clamp01 gain else a.masterGain_ i }

/-- `Audio::GetMasterGain`; `zero` is `0.0f`. -/
def GetMasterGain {S F : Type} (MAX_SOUND_TYPES : Nat) (zero : F) (a : Audio S F)
    (type : Nat) : F :=
  if type ≥ MAX_SOUND_TYPES then zero else a.masterGain_ type

/-! ## Audio::ThreadFunction -/

def DSBSTATUS_PLAYING : Nat := 0x00000001
def DSBSTATUS_BUFFERLOST : Nat := 0x00000002

/-- What the DirectSound buffer answers during one pass of the thread loop. -/
structure BufferAnswers where
  /-- First `GetStatus`. -/
  status : Nat
  /-- `GetStatus` after `Restore`. -/
  statusRestored : Nat
  /-- Play cursor of `GetCurrentPosition`. -/
  position : Nat
  /-- `Lock` returns `DS_OK`. -/
  lockOk : Bool

/-- Record of one pass of the thread loop. -/
structure ThreadPass where
  /-- Write cursor after the restart check, the offset a `Lock` would use. -/
  writeCursorBefore : Nat
  /-- Play cursor after `%=` and `&=`. -/
  playCursor : Nat
  /-- `writeBytes` passed to `Lock`, when the cursors differ. -/
  writeBytes : Option Int
  /-- The `Lock` was made and returned `DS_OK`. -/
  locked : Bool
  /-- Write cursor at the end of the pass. -/
  writeCursor : Nat

/-- One pass of `while (shouldRun_)` in `Audio::ThreadFunction`, as far as the cursors
go. `MixOutput` on the locked regions does not touch them. -/
def threadPass (bufferSize_ sampleSize_ : Nat) (hw : BufferAnswers) (writeCursor : Nat) :
    ThreadPass :=
  let status := if hw.status = DSBSTATUS_BUFFERLOST then hw.statusRestored else hw.status
  let writeCursor1 := if status &&& DSBSTATUS_PLAYING = 0 then 0 else writeCursor
  let playCursor1 := hw.position % bufferSize_
  let playCursor2 := playCursor1 &&& toUnsigned (-(toInt sampleSize_))
  if playCursor2 ≠ writeCursor1 then
    let writeBytes1 : Int := toInt ((playCursor2 + 4294967296 - writeCursor1) % 4294967296)
    let writeBytes2 : Int :=
      if writeBytes1 < 0 then toInt ((toUnsigned writeBytes1 + bufferSize_) % 4294967296)
      else writeBytes1
    if hw.lockOk then
      let writeCursor2 := (writeCursor1 + toUnsigned writeBytes2) % 4294967296
      let writeCursor3 :=
        if writeCursor2 ≥ bufferSize_ then (writeCursor2 + 4294967296 - bufferSize_) % 4294967296
        else writeCursor2
      ⟨writeCursor1, playCursor2, some writeBytes2, true, writeCursor3⟩
    else ⟨writeCursor1, playCursor2, some writeBytes2, false, writeCursor1⟩
  else ⟨writeCursor1, playCursor2, none, false, writeCursor1⟩

/-- The passes of the thread loop from a given write cursor, one record per answer of
the buffer (one per pass made while `shouldRun_` holds). -/
def threadPasses (bufferSize_ sampleSize_ : Nat) :
    List BufferAnswers → Nat → List ThreadPass
  | [], _ => []
  | hw :: rest, writeCursor =>
    let p := threadPass bufferSize_ sampleSize_ hw writeCursor
    p :: threadPasses bufferSize_ sampleSize_ rest p.writeCursor

/-- `Audio::ThreadFunction`: the loop starts with `writeCursor = 0`. -/
def ThreadFunction (bufferSize_ sampleSize_ : Nat) (answers : List BufferAnswers) :
    List ThreadPass :=
  threadPasses bufferSize_ sampleSize_ answers 0

/-! ## Definitions used in the statements and proofs -/

/-- Frame count of the next request of the chunk loop: `Min((int)maxSamples,
(int)mixSamples)` stored in an `unsigned`. -/
def currentSamplesOf (maxSamples mixSamples : Nat) : Nat :=
  toUnsigned (Min (toInt maxSamples) (toInt mixSamples))

/-- One pass of the body of the chunk loop with `cur` frames. -/
def chunkStep {S : Type} (Mix : MixFn S) (mixRate : Int) (stereo interpolate : Bool)
    (cur : Nat) (st : MixLoopState S) : MixLoopState S :=
  ⟨(mixSources Mix st.clipPtr cur mixRate stereo interpolate st.sources st.clip).1,
   (mixSources Mix st.clipPtr cur mixRate stereo interpolate st.sources st.clip).2,
   if stereo then st.clipPtr + (cur * 2) % 4294967296 else st.clipPtr + cur,
   st.requests ++ [(st.clipPtr, cur)]⟩

/-- The conversion loop at the end of `MixOutput`, applied to the state the chunk loop
ended in. -/
def convertOutput {S F : Type} (a : Audio S F) (bytes : Nat) (r : MixLoopState S) :
    MixOutputResult S :=
  { sources := r.sources
    clip := r.clip
    clipSamples := clipSamplesOf a.sixteenBit_ bytes
    clipPtr := r.clipPtr
    requests := r.requests
    dest := (List.range (clipSamplesOf a.sixteenBit_ bytes)).map
      (fun i => if a.sixteenBit_ then convert16 (r.clip i) else convert8 (r.clip i)) }

/-- Accumulator memory after the `memset` of `MixOutput`. -/
def clearedClip {S F : Type} (a : Audio S F) (bytes : Nat) : Nat → Int :=
  fun i => if i < clipSamplesOf a.sixteenBit_ bytes then 0 else a.clipData i

/-- How a source behaves from now on: what it adds for a request of `n` frames and what
it becomes. -/
def behaviour {S : Type} (vals : S → Nat → List Int) (adv : S → Nat → S) (s : S) :
    (Nat → List Int) × (Nat → S) :=
  (vals s, adv s)

/-- The sources `srcs0` have each mixed `d` frames in total since the state with memory
`clip0` and cursor `p0`, `adv` and `vals` describing how a source advances and what it
adds: this is what the loop state `st` then holds. -/
def MixedSoFar {S : Type} (vals : S → Nat → List Int) (adv : S → Nat → S) (ch : Nat)
    (srcs0 : List S) (clip0 : Nat → Int) (p0 d : Nat) (st : MixLoopState S) : Prop :=
  st.sources.map (behaviour vals adv) = srcs0.map (fun s => behaviour vals adv (adv s d)) ∧
  st.clip = (fun i => clip0 i + (srcs0.map (fun s => contribution p0 (vals s d) i)).sum) ∧
  st.clipPtr = p0 + d * ch

/-- The steps of the DirectSound `SetMode` before the final `Play` all succeed: the
interface exists or can be created, the cooperative level and the capabilities are
obtained, the sound buffer is created. -/
def dsStepsOk {S F : Type} (env : Backend) (a : Audio S F) : Prop :=
  (a.dsObject_ = true ∨ env.createOk = true) ∧ env.coopOk = true ∧ env.capsOk = true ∧
    env.createBufferOk = true

/-- The engine `a` with the registry replaced by sources of another kind. -/
def withSources {S T F : Type} (a : Audio S F) (srcs : List T) : Audio T F :=
  { dsObject_ := a.dsObject_
    dsBuffer_ := a.dsBuffer_
    playing_ := a.playing_
    bufferSamples_ := a.bufferSamples_
    bufferSize_ := a.bufferSize_
    sampleSize_ := a.sampleSize_
    mixRate_ := a.mixRate_
    sixteenBit_ := a.sixteenBit_
    stereo_ := a.stereo_
    interpolate_ := a.interpolate_
    masterGain_ := a.masterGain_
    clipBuffer_ := a.clipBuffer_
    clipData := a.clipData
    soundSources_ := srcs }

/-! ## Sample values for the instances -/

/-- A configured engine at 44100 Hz with the given format and sources; the accumulation
buffer holds stale values. -/
def sampleAudio (sixteenBit stereo : Bool) (srcs : List Nat) : Audio Nat Int :=
  { dsObject_ := true
    dsBuffer_ := true
    playing_ := true
    bufferSamples_ := 2048
    bufferSize_ := 2048 * (channelsOf stereo * (if sixteenBit then 2 else 1))
    sampleSize_ := channelsOf stereo * (if sixteenBit then 2 else 1)
    mixRate_ := 44100
    sixteenBit_ := sixteenBit
    stereo_ := stereo
    interpolate_ := false
    masterGain_ := fun _ => 1
    clipBuffer_ := some (2048 * channelsOf stereo)
    clipData := fun _ => 7
    soundSources_ := srcs }

/-- A source that adds `V` to every slot of the frames asked for and counts them. -/
def constMix (V : Int) : MixFn Nat :=
  fun s mem c n _ stereo _ =>
    (s + n, fun i => if c ≤ i ∧ i < c + n * channelsOf stereo then mem i + V else mem i)

/-- Values of a source that plays a ramp: slot `k` of its stream holds `k`. -/
def rampVals (ch s n : Nat) : List Int :=
  (List.range (n * ch)).map (fun k => ((s * ch + k : Nat) : Int))

/-- A source that adds the next values of its ramp and advances by the frames asked. -/
def rampMix : MixFn Nat :=
  fun s mem c n _ stereo _ => (s + n, addAt mem c (rampVals (channelsOf stereo) s n))

/-- A source that only records the requests it receives: the slot handed to it and the
frame count. -/
def recordMix : MixFn (List (Nat × Nat)) :=
  fun s mem c n _ _ _ => (s ++ [(c, n)], mem)

/-- What the spec says of the requests of the chunk loop for `N` frames with chunk bound
`M`: request `k` asks for `min(M, remaining)` frames, which is at least 1 and at most
`M`, at the slot reached by the frames asked before; the frames asked sum to `N`. -/
def ChunkRequests (M N ch : Nat) (reqs : List (Nat × Nat)) : Prop :=
  (reqs.map Prod.snd).sum = N ∧
  ∀ (k : Nat) (hk : k < reqs.length),
    (reqs[k]).2 = min M (N - ((reqs.take k).map Prod.snd).sum) ∧
    1 ≤ (reqs[k]).2 ∧ (reqs[k]).2 ≤ M ∧
    (reqs[k]).1 = ((reqs.take k).map Prod.snd).sum * ch

/-- Answers of an SDL device that opens and negotiates the given format. -/
def sdlAnswers (freq : Int) (format channels samples : Nat) : Backend :=
  { createOk := false, coopOk := false, capsOk := false, caps16Bit := false,
    capsStereo := false, createBufferOk := false, startOk := false,
    openOk := true, obtainedFreq := freq, obtainedFormat := format,
    obtainedChannels := channels, obtainedSamples := samples }

/-- Answers of a DirectSound device on which everything succeeds, the start of the
playback thread as given. -/
def dsAnswers (startOk : Bool) : Backend :=
  { createOk := true, coopOk := true, capsOk := true, caps16Bit := true,
    capsStereo := true, createBufferOk := true, startOk := startOk,
    openOk := false, obtainedFreq := 0, obtainedFormat := 0,
    obtainedChannels := 0, obtainedSamples := 0 }

/-- A freshly constructed engine with five sound types; the members the constructor
leaves alone hold mono, 8-bit. -/
def freshAudio : Audio Nat Int :=
  construct 5 1 (sampleAudio false false [])

/-- The engine after two successful SDL `SetMode` calls, the first negotiating stereo
16-bit, the second mono 8-bit with 1024 samples: the format flags of the first call are
still set. -/
def staleAudio : Audio Nat Int :=
  (SetMode true (sdlAnswers 22050 AUDIO_U8 1 1024)
    (SetMode true (sdlAnswers 44100 AUDIO_S16SYS 2 2048) freshAudio 100 44100 true true
      false).2 100 22050 false false false).2

/-- What the claim on the thread loop says of one pass, for the answers `hw` of the
buffer: the write cursor before and after is a multiple of the sample size below the
buffer size; the play cursor is the hardware cursor reduced modulo the buffer size and
aligned down; when the cursors differ the span is `(playCursor - writeCursor) mod
bufferSize_`, a positive multiple of the sample size; after a successful lock the write
cursor is the play cursor. -/
def PassCursorsOk (bufferSize_ sampleSize_ : Nat) (hw : BufferAnswers) (p : ThreadPass) :
    Prop :=
  p.writeCursorBefore % sampleSize_ = 0 ∧ p.writeCursorBefore < bufferSize_ ∧
  p.playCursor = hw.position % bufferSize_ - (hw.position % bufferSize_) % sampleSize_ ∧
  (p.playCursor ≠ p.writeCursorBefore →
    p.writeBytes = some (((p.playCursor + bufferSize_ - p.writeCursorBefore) % bufferSize_
      : Nat) : Int) ∧
    0 < (p.playCursor + bufferSize_ - p.writeCursorBefore) % bufferSize_ ∧
    ((p.playCursor + bufferSize_ - p.writeCursorBefore) % bufferSize_) % sampleSize_ = 0) ∧
  (p.playCursor = p.writeCursorBefore → p.writeBytes = none ∧ p.locked = false) ∧
  (p.locked = true → p.writeCursor = p.playCursor) ∧
  p.writeCursor % sampleSize_ = 0 ∧ p.writeCursor < bufferSize_

/-- The pass of the thread loop after the restart check, from the write cursor that
check leaves. -/
def threadPassFrom (bufferSize_ sampleSize_ : Nat) (hw : BufferAnswers) (writeCursor1 : Nat) :
    ThreadPass :=
  let playCursor1 := hw.position % bufferSize_
  let playCursor2 := playCursor1 &&& toUnsigned (-(toInt sampleSize_))
  if playCursor2 ≠ writeCursor1 then
    let writeBytes1 : Int := toInt ((playCursor2 + 4294967296 - writeCursor1) % 4294967296)
    let writeBytes2 : Int :=
      if writeBytes1 < 0 then toInt ((toUnsigned writeBytes1 + bufferSize_) % 4294967296)
      else writeBytes1
    if hw.lockOk then
      let writeCursor2 := (writeCursor1 + toUnsigned writeBytes2) % 4294967296
      let writeCursor3 :=
        if writeCursor2 ≥ bufferSize_ then (writeCursor2 + 4294967296 - bufferSize_) % 4294967296
        else writeCursor2
      ⟨writeCursor1, playCursor2, some writeBytes2, true, writeCursor3⟩
    else ⟨writeCursor1, playCursor2, some writeBytes2, false, writeCursor1⟩
  else ⟨writeCursor1, playCursor2, none, false, writeCursor1⟩

/-! ## The chunk loop -/

theorem mixLoop_zero_left {S : Type} (Mix : MixFn S) (mixRate : Int)
    (stereo interpolate : Bool) (M fuel : Nat) (st : MixLoopState S) :
    mixLoop Mix mixRate stereo interpolate M fuel 0 st = some st := by
  cases fuel <;> simp [mixLoop]

theorem mixLoop_succ {S : Type} (Mix : MixFn S) (mixRate : Int)
    (stereo interpolate : Bool) (M fuel n : Nat) (st : MixLoopState S) (hn : n ≠ 0) :
    mixLoop Mix mixRate stereo interpolate M (fuel + 1) n st =
      mixLoop Mix mixRate stereo interpolate M fuel
        ((n + 4294967296 - currentSamplesOf M n) % 4294967296)
        (chunkStep Mix mixRate stereo interpolate (currentSamplesOf M n) st) := by
  simp only [mixLoop, if_neg hn, currentSamplesOf, chunkStep]

theorem currentSamplesOf_small (M n : Nat) (hM : M < 2147483648) (hn : n < 2147483648) :
    currentSamplesOf M n = min M n := by
  unfold currentSamplesOf toUnsigned Min toInt
  have h1 : M % 4294967296 = M := Nat.mod_eq_of_lt (by omega)
  have h2 : n % 4294967296 = n := Nat.mod_eq_of_lt (by omega)
  rw [h1, h2, if_pos hM, if_pos hn]
  split_ifs <;> omega

theorem currentSamplesOf_large (M n : Nat) (hM : M < 2147483648) (hn : 2147483648 ≤ n)
    (hn2 : n < 4294967296) : currentSamplesOf M n = n := by
  unfold currentSamplesOf toUnsigned Min toInt
  have h1 : M % 4294967296 = M := Nat.mod_eq_of_lt (by omega)
  have h2 : n % 4294967296 = n := Nat.mod_eq_of_lt (by omega)
  rw [h1, h2, if_pos hM, if_neg (by omega)]
  split_ifs <;> omega

theorem currentSamplesOf_bounds (M n : Nat) (hM0 : 0 < M) (hM : M < 2147483648)
    (hn0 : 0 < n) (hn : n < 4294967296) :
    1 ≤ currentSamplesOf M n ∧ currentSamplesOf M n ≤ n ∧
      (n + 4294967296 - currentSamplesOf M n) % 4294967296 = n - currentSamplesOf M n ∧
      (n < 2147483648 → currentSamplesOf M n ≤ M) := by
  by_cases h : n < 2147483648
  · rw [currentSamplesOf_small M n hM h]
    refine ⟨by omega, by omega, by omega, fun _ => by omega⟩
  · rw [currentSamplesOf_large M n hM (by omega) hn]
    refine ⟨by omega, by omega, by omega, fun h2 => by omega⟩

/-- A property kept by every pass of the chunk loop holds when the loop ends, and the
loop does end within `mixSamples` passes. -/
theorem mixLoop_invariant {S : Type} (Mix : MixFn S) (mixRate : Int)
    (stereo interpolate : Bool) (M : Nat) (hM0 : 0 < M) (hM : M < 2147483648)
    (Inv : Nat → MixLoopState S → Prop)
    (hstep : ∀ n st, 0 < n → n < 4294967296 → Inv n st →
      Inv (n - currentSamplesOf M n)
        (chunkStep Mix mixRate stereo interpolate (currentSamplesOf M n) st)) :
    ∀ (fuel n : Nat) (st : MixLoopState S), n ≤ fuel → n < 4294967296 → Inv n st →
      ∃ r, mixLoop Mix mixRate stereo interpolate M fuel n st = some r ∧ Inv 0 r := by
  intro fuel
  induction fuel with
  | zero =>
    intro n st hn _ hinv
    have : n = 0 := by omega
    subst this
    exact ⟨st, mixLoop_zero_left _ _ _ _ _ _ _, hinv⟩
  | succ fuel ih =>
    intro n st hn hn2 hinv
    by_cases h0 : n = 0
    · subst h0
      exact ⟨st, mixLoop_zero_left _ _ _ _ _ _ _, hinv⟩
    · obtain ⟨c1, c2, c3, _⟩ := currentSamplesOf_bounds M n hM0 hM (by omega) hn2
      rw [mixLoop_succ _ _ _ _ _ _ _ _ h0, c3]
      exact ih _ _ (by omega) (by omega) (hstep n st (by omega) hn2 hinv)

theorem mixSamplesOf_le (stereo_ sixteenBit_ : Bool) (bytes : Nat) :
    mixSamplesOf stereo_ sixteenBit_ bytes ≤ bytes := by
  unfold mixSamplesOf
  cases stereo_ <;> cases sixteenBit_ <;> simp [Nat.shiftRight_eq_div_pow] <;> omega

theorem MixOutput_of_mixLoop {S F : Type} (D : Int) (Mix : MixFn S) (a : Audio S F)
    (bytes fuel : Nat) (r : MixLoopState S)
    (h : mixLoop Mix a.mixRate_ a.stereo_ a.interpolate_ (maxSamples a.mixRate_ D) fuel
      (mixSamplesOf a.stereo_ a.sixteenBit_ bytes)
      ⟨a.soundSources_, clearedClip a bytes, 0, []⟩ = some r) :
    MixOutput D Mix a bytes fuel = some (convertOutput a bytes r) := by
  unfold clearedClip at h
  simp only [MixOutput, h, convertOutput]

theorem map_range_const (n : Nat) (f : Nat → Int) (v : Int) (h : ∀ i, i < n → f i = v) :
    (List.range n).map f = List.replicate n v := by
  rw [List.eq_replicate_iff]
  refine ⟨by simp, ?_⟩
  intro b hb
  rw [List.mem_map] at hb
  obtain ⟨i, hi, rfl⟩ := hb
  exact h i (List.mem_range.mp hi)

theorem clipSamplesOf_eq (sixteenBit_ : Bool) (bytes : Nat) :
    clipSamplesOf sixteenBit_ bytes = if sixteenBit_ then bytes / 2 else bytes := by
  cases sixteenBit_ <;> simp [clipSamplesOf, Nat.shiftRight_eq_div_pow]

theorem convert16_zero : convert16 0 = 0 := by decide

theorem convert8_zero : convert8 0 = 128 := by decide

/-- C1. With no registered sound source, `MixOutput` returns for every byte count below
`2 ^ 32`, in mono and in stereo, and every sample it writes is the silence value: the
destination receives `bytes` bytes equal to 128 in 8-bit mode and `bytes / 2` shorts
equal to 0 in 16-bit mode. The engine is configured: the chunk bound `maxSamples` is a
positive `int`. -/
theorem MixOutput_silence {S F : Type} (D : Int) (Mix : MixFn S) (a : Audio S F)
    (bytes fuel : Nat) (hsrc : a.soundSources_ = [])
    (hM0 : 0 < maxSamples a.mixRate_ D) (hM : maxSamples a.mixRate_ D < 2147483648)
    (hb : bytes < 4294967296)
    (hfuel : mixSamplesOf a.stereo_ a.sixteenBit_ bytes ≤ fuel) :
    ∃ r, MixOutput D Mix a bytes fuel = some r ∧
      r.dest = List.replicate (if a.sixteenBit_ then bytes / 2 else bytes)
        (if a.sixteenBit_ then 0 else 128) := by
  have hle := mixSamplesOf_le a.stereo_ a.sixteenBit_ bytes
  obtain ⟨r, hr, _, hclip⟩ := mixLoop_invariant Mix a.mixRate_ a.stereo_ a.interpolate_
    (maxSamples a.mixRate_ D) hM0 hM
    (fun _ st => st.sources = [] ∧ st.clip = clearedClip a bytes)
    (by
      intro n st _ _ hinv
      obtain ⟨h1, h2⟩ := hinv
      simp [chunkStep, h1, h2, mixSources])
    fuel (mixSamplesOf a.stereo_ a.sixteenBit_ bytes)
    ⟨a.soundSources_, clearedClip a bytes, 0, []⟩
    hfuel (by omega) ⟨hsrc, rfl⟩
  refine ⟨_, MixOutput_of_mixLoop D Mix a bytes fuel r hr, ?_⟩
  simp only [convertOutput, hclip]
  rw [← clipSamplesOf_eq]
  apply map_range_const
  intro i hi
  cases hs : a.sixteenBit_ <;> simp [clearedClip, hs] at hi ⊢ <;>
    simp [hi, convert16_zero, convert8_zero]

theorem mixSamplesOf_mul_channels (stereo_ sixteenBit_ : Bool) (bytes : Nat)
    (h : bytes % (channelsOf stereo_ * (if sixteenBit_ then 2 else 1)) = 0) :
    mixSamplesOf stereo_ sixteenBit_ bytes * channelsOf stereo_ =
      clipSamplesOf sixteenBit_ bytes := by
  unfold mixSamplesOf clipSamplesOf
  unfold channelsOf at h ⊢
  cases stereo_ <;> cases sixteenBit_ <;> simp [Nat.shiftRight_eq_div_pow] at h ⊢ <;> omega

theorem mixSamplesOf_mul_channels_le (stereo_ sixteenBit_ : Bool) (bytes : Nat) :
    mixSamplesOf stereo_ sixteenBit_ bytes * channelsOf stereo_ ≤
      clipSamplesOf sixteenBit_ bytes := by
  unfold mixSamplesOf clipSamplesOf channelsOf
  cases stereo_ <;> cases sixteenBit_ <;> simp [Nat.shiftRight_eq_div_pow] <;> omega

theorem clipSamplesOf_le (sixteenBit_ : Bool) (bytes : Nat) :
    clipSamplesOf sixteenBit_ bytes ≤ bytes := by
  rw [clipSamplesOf_eq]
  cases sixteenBit_ <;> simp
  omega

/-- Cursor advance of one pass when the doubled frame count does not wrap. -/
theorem chunkStep_clipPtr {S : Type} (Mix : MixFn S) (mixRate : Int)
    (stereo interpolate : Bool) (cur : Nat) (st : MixLoopState S)
    (h : cur * channelsOf stereo < 4294967296) :
    (chunkStep Mix mixRate stereo interpolate cur st).clipPtr =
      st.clipPtr + cur * channelsOf stereo := by
  unfold channelsOf at h ⊢
  cases stereo <;> simp [chunkStep] at h ⊢
  omega

/-- C2. One registered source whose `Mix` adds the constant `V` to every slot of the
frames it is asked for, destination of a whole number of frames: `MixOutput` returns
and every sample written is `Clamp(V, -32768, 32767)` in 16-bit mode and
`Clamp((V >> 8) + 128, 0, 255)` in 8-bit mode, with the flooring shift. In 16-bit mode
that is `V` itself for `-32768 ≤ V ≤ 32767`, 32767 for 40000 and -32768 for -40000. -/
theorem MixOutput_constant_source {S F : Type} (D : Int) (Mix : MixFn S) (a : Audio S F)
    (bytes fuel : Nat) (V : Int) (s0 : S) (hsrc : a.soundSources_ = [s0])
    (hMix : ∀ s mem c n, (Mix s mem c n a.mixRate_ a.stereo_ a.interpolate_).2 =
      fun i => if c ≤ i ∧ i < c + n * channelCount a then mem i + V else mem i)
    (hM0 : 0 < maxSamples a.mixRate_ D) (hM : maxSamples a.mixRate_ D < 2147483648)
    (hb : bytes < 4294967296)
    (hframes : bytes % (channelCount a * bytesPerSample a) = 0)
    (hfuel : mixSamplesOf a.stereo_ a.sixteenBit_ bytes ≤ fuel) :
    ∃ r, MixOutput D Mix a bytes fuel = some r ∧
      r.dest = List.replicate (if a.sixteenBit_ then bytes / 2 else bytes)
        (if a.sixteenBit_ then Clamp V (-32768) 32767
          else Clamp ((V >>> (8 : Nat)) + 128) 0 255) ∧
      (V >>> (8 : Nat) = V / 256) ∧
      (a.sixteenBit_ = true → -32768 ≤ V → V ≤ 32767 →
        r.dest = List.replicate (bytes / 2) V) ∧
      (a.sixteenBit_ = true → V = 40000 → r.dest = List.replicate (bytes / 2) 32767) ∧
      (a.sixteenBit_ = true → V = -40000 → r.dest = List.replicate (bytes / 2) (-32768)) := by
  have hle := mixSamplesOf_le a.stereo_ a.sixteenBit_ bytes
  have hcs := clipSamplesOf_le a.sixteenBit_ bytes
  have hN := mixSamplesOf_mul_channels a.stereo_ a.sixteenBit_ bytes hframes
  obtain ⟨r, hr, _, hptr, hclip⟩ := mixLoop_invariant Mix a.mixRate_ a.stereo_ a.interpolate_
    (maxSamples a.mixRate_ D) hM0 hM
    (fun n st => (∃ s, st.sources = [s]) ∧
      st.clipPtr + n * channelsOf a.stereo_ = clipSamplesOf a.sixteenBit_ bytes ∧
      st.clip = fun i => if i < st.clipPtr then V else clearedClip a bytes i)
    (by
      intro n st hn0 hn2 hinv
      obtain ⟨⟨s, hs⟩, h2, h3⟩ := hinv
      obtain ⟨c1, c2, _, _⟩ := currentSamplesOf_bounds _ n hM0 hM hn0 hn2
      have hmul : currentSamplesOf (maxSamples a.mixRate_ D) n * channelsOf a.stereo_
          ≤ n * channelsOf a.stereo_ := Nat.mul_le_mul_right _ c2
      have hcp := chunkStep_clipPtr Mix a.mixRate_ a.stereo_ a.interpolate_
        (currentSamplesOf (maxSamples a.mixRate_ D) n) st (by omega)
      refine ⟨?_, ?_, ?_⟩
      · simp [chunkStep, hs, mixSources]
      · rw [hcp, Nat.sub_mul]
        omega
      · rw [hcp]
        simp only [chunkStep, hs, mixSources, hMix, h3, channelCount]
        funext i
        by_cases hi1 : i < st.clipPtr
        · have hi0 : ¬ (st.clipPtr ≤ i) := by omega
          have hi2 : i < st.clipPtr +
              currentSamplesOf (maxSamples a.mixRate_ D) n * channelsOf a.stereo_ := by omega
          simp only [hi0, false_and, if_false, hi1, if_true, hi2]
        · by_cases hi2 : i < st.clipPtr +
              currentSamplesOf (maxSamples a.mixRate_ D) n * channelsOf a.stereo_
          · have hi3 : i < clipSamplesOf a.sixteenBit_ bytes := by omega
            have hi4 : st.clipPtr ≤ i := by omega
            simp only [hi4, hi2, and_self, if_true, hi1, if_false, clearedClip, hi3, zero_add]
          · simp only [hi2, and_false, if_false, hi1])
    fuel (mixSamplesOf a.stereo_ a.sixteenBit_ bytes)
    ⟨a.soundSources_, clearedClip a bytes, 0, []⟩
    hfuel (by omega) ⟨⟨s0, hsrc⟩, by simpa [channelCount, bytesPerSample] using hN, by
      funext i; simp⟩
  have hdest : (convertOutput a bytes r).dest =
      List.replicate (if a.sixteenBit_ then bytes / 2 else bytes)
        (if a.sixteenBit_ then Clamp V (-32768) 32767
          else Clamp ((V >>> (8 : Nat)) + 128) 0 255) := by
    simp only [convertOutput, hclip]
    rw [← clipSamplesOf_eq]
    apply map_range_const
    intro i hi
    have hi2 : i < r.clipPtr := by omega
    cases hs : a.sixteenBit_ <;> simp [hi2, convert16, convert8]
  refine ⟨_, MixOutput_of_mixLoop D Mix a bytes fuel r hr, hdest, ?_, ?_, ?_, ?_⟩
  · rw [Int.shiftRight_eq_div_pow]
    norm_num
  · intro h16 h1 h2
    rw [hdest]
    simp only [h16, if_true]
    congr 1
    unfold Clamp
    split_ifs <;> omega
  · intro h16 hV
    rw [hdest]
    subst hV
    simp [h16, Clamp]
  · intro h16 hV
    rw [hdest]
    subst hV
    simp [h16, Clamp]

/-! ## Additive sources and chunking -/

theorem contribution_append (c : Nat) (xs ys : List Int) (i : Nat) :
    contribution c (xs ++ ys) i = contribution c xs i + contribution (c + xs.length) ys i := by
  unfold contribution
  by_cases h1 : c ≤ i
  · by_cases h2 : c + xs.length ≤ i
    · rw [if_pos h1, if_pos h1, if_pos h2, List.getD_append_right _ _ _ _ (by omega),
        List.getD_eq_default xs 0 (by omega)]
      have : i - c - xs.length = i - (c + xs.length) := by omega
      rw [this]
      simp
    · rw [if_pos h1, if_pos h1, if_neg h2, List.getD_append _ _ _ _ (by omega)]
      simp
  · have h2 : ¬ (c + xs.length ≤ i) := by omega
    rw [if_neg h1, if_neg h1, if_neg h2]
    simp

theorem mixSources_additive {S : Type} (Mix : MixFn S) (mixRate : Int)
    (stereo interpolate : Bool) (vals : S → Nat → List Int) (adv : S → Nat → S)
    (hMix : ∀ s mem c n, Mix s mem c n mixRate stereo interpolate =
      (adv s n, addAt mem c (vals s n)))
    (c n : Nat) : ∀ (srcs : List S) (mem : Nat → Int),
      mixSources Mix c n mixRate stereo interpolate srcs mem =
        (srcs.map (fun s => adv s n),
          fun i => mem i + (srcs.map (fun s => contribution c (vals s n) i)).sum) := by
  intro srcs
  induction srcs with
  | nil => intro mem; simp [mixSources]
  | cons s rest ih =>
    intro mem
    simp only [mixSources, hMix, ih, List.map_cons, List.sum_cons, addAt]
    congr 1
    funext i
    ring

theorem mixedSoFar_step {S : Type} (Mix : MixFn S) (mixRate : Int)
    (stereo interpolate : Bool) (vals : S → Nat → List Int) (adv : S → Nat → S)
    (hMix : ∀ s mem c n, Mix s mem c n mixRate stereo interpolate =
      (adv s n, addAt mem c (vals s n)))
    (hLen : ∀ s n, (vals s n).length = n * channelsOf stereo)
    (hSplit : ∀ s x y, vals s (x + y) = vals s x ++ vals (adv s x) y ∧
      adv s (x + y) = adv (adv s x) y)
    (srcs0 : List S) (clip0 : Nat → Int) (p0 d c : Nat) (st st2 : MixLoopState S)
    (h : MixedSoFar vals adv (channelsOf stereo) srcs0 clip0 p0 d st)
    (h1 : st2.sources =
      (mixSources Mix st.clipPtr c mixRate stereo interpolate st.sources st.clip).1)
    (h2 : st2.clip =
      (mixSources Mix st.clipPtr c mixRate stereo interpolate st.sources st.clip).2)
    (h3 : st2.clipPtr = st.clipPtr + c * channelsOf stereo) :
    MixedSoFar vals adv (channelsOf stereo) srcs0 clip0 p0 (d + c) st2 := by
  obtain ⟨hs, hc, hp⟩ := h
  rw [mixSources_additive Mix mixRate stereo interpolate vals adv hMix] at h1 h2
  have e1 : st.sources.map (fun s => behaviour vals adv (adv s c)) =
      srcs0.map (fun s => behaviour vals adv (adv s (d + c))) := by
    have := congrArg (List.map (fun b : (Nat → List Int) × (Nat → S) =>
      behaviour vals adv (b.2 c))) hs
    simp only [List.map_map, Function.comp_def, behaviour] at this
    simp only [behaviour, (hSplit _ d c).2]
    exact this
  have e2 : ∀ i, st.sources.map (fun s => contribution st.clipPtr (vals s c) i) =
      srcs0.map (fun s => contribution st.clipPtr (vals (adv s d) c) i) := by
    intro i
    have := congrArg (List.map (fun b : (Nat → List Int) × (Nat → S) =>
      contribution st.clipPtr (b.1 c) i)) hs
    simpa only [List.map_map, Function.comp_def, behaviour] using this
  refine ⟨?_, ?_, ?_⟩
  · rw [h1]
    simp only [List.map_map, Function.comp_def]
    exact e1
  · rw [h2]
    funext i
    show st.clip i + (List.map (fun s => contribution st.clipPtr (vals s c) i) st.sources).sum
      = _
    rw [e2 i, hc, hp, add_assoc, ← List.sum_map_add]
    congr 2
    apply List.map_congr_left
    intro s _
    rw [(hSplit s d c).1, contribution_append, hLen]
  · rw [h3, hp]
    ring

theorem mixByChunks_mixed {S : Type} (Mix : MixFn S) (mixRate : Int)
    (stereo interpolate : Bool) (vals : S → Nat → List Int) (adv : S → Nat → S)
    (hMix : ∀ s mem c n, Mix s mem c n mixRate stereo interpolate =
      (adv s n, addAt mem c (vals s n)))
    (hLen : ∀ s n, (vals s n).length = n * channelsOf stereo)
    (hSplit : ∀ s x y, vals s (x + y) = vals s x ++ vals (adv s x) y ∧
      adv s (x + y) = adv (adv s x) y)
    (srcs0 : List S) (clip0 : Nat → Int) (p0 : Nat) :
    ∀ (chunks : List Nat) (d : Nat) (st : MixLoopState S),
      MixedSoFar vals adv (channelsOf stereo) srcs0 clip0 p0 d st →
      MixedSoFar vals adv (channelsOf stereo) srcs0 clip0 p0 (d + chunks.sum)
        (mixByChunks Mix mixRate stereo interpolate chunks st) := by
  intro chunks
  induction chunks with
  | nil => intro d st h; simpa [mixByChunks] using h
  | cons c cs ih =>
    intro d st h
    simp only [mixByChunks, List.sum_cons]
    rw [← add_assoc]
    apply ih
    exact mixedSoFar_step Mix mixRate stereo interpolate vals adv hMix hLen hSplit
      srcs0 clip0 p0 d c st _ h rfl rfl rfl

theorem mixedSoFar_start {S : Type} (vals : S → Nat → List Int) (adv : S → Nat → S)
    (ch : Nat) (hLen : ∀ s n, (vals s n).length = n * ch)
    (hSplit : ∀ s x y, vals s (x + y) = vals s x ++ vals (adv s x) y ∧
      adv s (x + y) = adv (adv s x) y)
    (srcs0 : List S) (clip0 : Nat → Int) (reqs : List (Nat × Nat)) :
    MixedSoFar vals adv ch srcs0 clip0 0 0 ⟨srcs0, clip0, 0, reqs⟩ := by
  have hv : ∀ s, vals s 0 = [] := by
    intro s
    have := hLen s 0
    simpa using this
  refine ⟨?_, ?_, ?_⟩
  · apply List.map_congr_left
    intro s _
    unfold behaviour
    congr 1
    · funext x
      have := (hSplit s 0 x).1
      rw [hv, Nat.zero_add] at this
      simpa using this
    · funext x
      have := (hSplit s 0 x).2
      rw [Nat.zero_add] at this
      exact this
  · funext i
    simp [hv, contribution]
  · simp

/-- C1, an instance: 8 bytes of 16-bit stereo without sources are four zero samples. -/
theorem MixOutput_silence_witness :
    ∃ r, MixOutput 100 rampMix (sampleAudio true true []) 8 8 = some r ∧
      r.dest = [0, 0, 0, 0] :=
  MixOutput_silence 100 rampMix (sampleAudio true true []) 8 8 rfl (by decide) (by decide)
    (by decide) (by decide)

/-- C2, an instance: 4 bytes of 8-bit stereo from a source adding 40000. -/
theorem MixOutput_constant_source_witness :
    ∃ r, MixOutput 100 (constMix 40000) (sampleAudio false true [0]) 4 4 = some r ∧
      r.dest = List.replicate (if (sampleAudio false true [0]).sixteenBit_ then 4 / 2 else 4)
        (if (sampleAudio false true [0]).sixteenBit_ then Clamp 40000 (-32768) 32767
          else Clamp (((40000 : Int) >>> (8 : Nat)) + 128) 0 255) :=
  let ⟨r, h1, h2, _⟩ := MixOutput_constant_source 100 (constMix 40000)
    (sampleAudio false true [0]) 4 4 40000 0 rfl (fun _ _ _ _ => rfl) (by decide) (by decide)
    (by decide) (by decide) (by decide)
  ⟨r, h1, h2⟩

/-- C3. Chunking transparency. The sources are additive and cursor-based: `Mix` adds the
values `vals s n` (one per slot of the `n` frames) from the cursor on and leaves the
source `adv s n`, and a request for `x + y` frames adds what a request for `x` frames
followed by one for `y` frames adds. Then for every byte count below `2 ^ 32` (every
frame count `N`, also above `maxSamples`) and every way `chunks` of cutting the `N`
frames into caller-side requests, `MixOutput` returns and writes the same samples as the
caller-chunked run; the accumulator, the cursor and the behaviour of the sources from
then on agree as well. -/
theorem MixOutput_chunking {S F : Type} (D : Int) (Mix : MixFn S) (a : Audio S F)
    (bytes fuel : Nat) (vals : S → Nat → List Int) (adv : S → Nat → S) (chunks : List Nat)
    (hMix : ∀ s mem c n, Mix s mem c n a.mixRate_ a.stereo_ a.interpolate_ =
      (adv s n, addAt mem c (vals s n)))
    (hLen : ∀ s n, (vals s n).length = n * channelCount a)
    (hSplit : ∀ s x y, vals s (x + y) = vals s x ++ vals (adv s x) y ∧
      adv s (x + y) = adv (adv s x) y)
    (hM0 : 0 < maxSamples a.mixRate_ D) (hM : maxSamples a.mixRate_ D < 2147483648)
    (hb : bytes < 4294967296)
    (hsum : chunks.sum = mixSamplesOf a.stereo_ a.sixteenBit_ bytes)
    (hfuel : mixSamplesOf a.stereo_ a.sixteenBit_ bytes ≤ fuel) :
    ∃ r, MixOutput D Mix a bytes fuel = some r ∧
      r.dest = (MixOutputChunked Mix a bytes chunks).dest ∧
      r.clip = (MixOutputChunked Mix a bytes chunks).clip ∧
      r.clipPtr = (MixOutputChunked Mix a bytes chunks).clipPtr ∧
      r.sources.map (behaviour vals adv) =
        (MixOutputChunked Mix a bytes chunks).sources.map (behaviour vals adv) := by
  have hle := mixSamplesOf_le a.stereo_ a.sixteenBit_ bytes
  have hcs := clipSamplesOf_le a.sixteenBit_ bytes
  have hN := mixSamplesOf_mul_channels_le a.stereo_ a.sixteenBit_ bytes
  have hstart := mixedSoFar_start vals adv (channelsOf a.stereo_) hLen hSplit
    a.soundSources_ (clearedClip a bytes) []
  obtain ⟨r, hr, _, hs1, hc1, hp1⟩ := mixLoop_invariant Mix a.mixRate_ a.stereo_
    a.interpolate_ (maxSamples a.mixRate_ D) hM0 hM
    (fun n st => n ≤ mixSamplesOf a.stereo_ a.sixteenBit_ bytes ∧
      MixedSoFar vals adv (channelsOf a.stereo_) a.soundSources_ (clearedClip a bytes) 0
        (mixSamplesOf a.stereo_ a.sixteenBit_ bytes - n) st)
    (by
      intro n st hn0 hn2 hinv
      obtain ⟨hnN, hmixed⟩ := hinv
      obtain ⟨c1, c2, _, _⟩ := currentSamplesOf_bounds _ n hM0 hM hn0 hn2
      have hmul : currentSamplesOf (maxSamples a.mixRate_ D) n * channelsOf a.stereo_
          ≤ mixSamplesOf a.stereo_ a.sixteenBit_ bytes * channelsOf a.stereo_ :=
        Nat.mul_le_mul_right _ (by omega)
      have hcp := chunkStep_clipPtr Mix a.mixRate_ a.stereo_ a.interpolate_
        (currentSamplesOf (maxSamples a.mixRate_ D) n) st (by omega)
      refine ⟨by omega, ?_⟩
      have hd : mixSamplesOf a.stereo_ a.sixteenBit_ bytes -
          (n - currentSamplesOf (maxSamples a.mixRate_ D) n) =
          (mixSamplesOf a.stereo_ a.sixteenBit_ bytes - n) +
            currentSamplesOf (maxSamples a.mixRate_ D) n := by omega
      rw [hd]
      exact mixedSoFar_step Mix a.mixRate_ a.stereo_ a.interpolate_ vals adv hMix hLen
        hSplit a.soundSources_ (clearedClip a bytes) 0 _ _ st _ hmixed rfl rfl hcp)
    fuel (mixSamplesOf a.stereo_ a.sixteenBit_ bytes)
    ⟨a.soundSources_, clearedClip a bytes, 0, []⟩
    hfuel (by omega) ⟨le_refl _, by rw [Nat.sub_self]; exact hstart⟩
  obtain ⟨hs2, hc2, hp2⟩ := mixByChunks_mixed Mix a.mixRate_ a.stereo_ a.interpolate_
    vals adv hMix hLen hSplit a.soundSources_ (clearedClip a bytes) 0 chunks 0
    ⟨a.soundSources_, clearedClip a bytes, 0, []⟩ hstart
  simp only [hsum, Nat.zero_add] at hs2 hc2 hp2
  simp only [Nat.sub_zero, Nat.zero_add] at hs1 hc1 hp1
  refine ⟨_, MixOutput_of_mixLoop D Mix a bytes fuel r hr, ?_, ?_, ?_, ?_⟩
  · show (convertOutput a bytes r).dest = (convertOutput a bytes
      (mixByChunks Mix a.mixRate_ a.stereo_ a.interpolate_ chunks
        ⟨a.soundSources_, clearedClip a bytes, 0, []⟩)).dest
    simp only [convertOutput, hc1, hc2]
  · exact hc1.trans hc2.symm
  · exact hp1.trans hp2.symm
  · exact hs1.trans hs2.symm

theorem rampVals_split (ch s x y : Nat) :
    rampVals ch s (x + y) = rampVals ch s x ++ rampVals ch (s + x) y := by
  unfold rampVals
  rw [Nat.add_mul, List.range_add, List.map_append, List.map_map]
  congr 1
  apply List.map_congr_left
  intro k _
  simp only [Function.comp]
  congr 1
  ring

/-- C3, an instance: 24 frames of 16-bit mono with a chunk bound of 11 frames, two ramp
sources, against a caller mixing 5 and then 19 frames. -/
theorem MixOutput_chunking_witness :
    maxSamples 44100 1 = 11 ∧
    ∃ r, MixOutput 1 rampMix (sampleAudio true false [0, 100]) 48 24 = some r ∧
      r.dest = (MixOutputChunked rampMix (sampleAudio true false [0, 100]) 48 [5, 19]).dest :=
  ⟨by decide,
    let ⟨r, h1, h2, _⟩ := MixOutput_chunking 1 rampMix (sampleAudio true false [0, 100]) 48 24
      (rampVals 1) (fun s n => s + n) [5, 19] (fun _ _ _ _ => rfl)
      (fun s n => by simp [rampVals, channelCount, channelsOf, sampleAudio])
      (fun s x y => ⟨rampVals_split 1 s x y, by ring⟩)
      (by decide) (by decide) (by decide) (by decide) (by decide)
    ⟨r, h1, h2⟩⟩

/-! ## Requests of the chunk loop -/

theorem maxSamples_eq (mixRate D : Int) (h0 : 0 ≤ mixRate * D)
    (h1 : mixRate * D < 2147483648) :
    ((maxSamples mixRate D : Nat) : Int) = mixRate * D / 1000 / 4 := by
  unfold maxSamples wrapInt
  generalize mixRate * D = x at h0 h1
  have hx : toInt (toUnsigned x) = x := by
    unfold toInt toUnsigned
    split_ifs <;> omega
  rw [hx, Int.tdiv_eq_ediv h0 (by norm_num), Int.tdiv_eq_ediv (by omega) (by norm_num)]
  unfold toUnsigned
  omega

theorem maxSamples_supported (mixRate D : Int) (hr1 : 11025 ≤ mixRate) (hD : 0 < D)
    (h1 : mixRate * D < 2147483648) :
    1 ≤ maxSamples mixRate D ∧ maxSamples mixRate D < 2147483648 := by
  have h0 : 11025 ≤ mixRate * D := by nlinarith
  have := maxSamples_eq mixRate D (by omega) h1
  generalize mixRate * D = x at h0 h1 this
  omega

theorem mixLoop_requests {S : Type} (Mix : MixFn S) (mixRate : Int)
    (stereo interpolate : Bool) (M N : Nat) (hM0 : 0 < M) (hM : M < 2147483648)
    (hN : N < 2147483648) (fuel : Nat) (hfuel : N ≤ fuel) (srcs : List S)
    (mem : Nat → Int) :
    ∃ r, mixLoop Mix mixRate stereo interpolate M fuel N ⟨srcs, mem, 0, []⟩ = some r ∧
      ChunkRequests M N (channelsOf stereo) r.requests ∧
      r.clipPtr = N * channelsOf stereo := by
  have hch : channelsOf stereo ≤ 2 := by unfold channelsOf; split_ifs <;> omega
  obtain ⟨r, hr, _, hsum, hptr, hall⟩ := mixLoop_invariant Mix mixRate stereo interpolate
    M hM0 hM
    (fun n st => n ≤ N ∧ (st.requests.map Prod.snd).sum = N - n ∧
      st.clipPtr = (N - n) * channelsOf stereo ∧
      ∀ (k : Nat) (hk : k < st.requests.length),
        (st.requests[k]).2 = min M (N - ((st.requests.take k).map Prod.snd).sum) ∧
        1 ≤ (st.requests[k]).2 ∧ (st.requests[k]).2 ≤ M ∧
        (st.requests[k]).1 = ((st.requests.take k).map Prod.snd).sum * channelsOf stereo)
    (by
      intro n st hn0 hn2 hinv
      obtain ⟨hnN, hsum, hptr, hall⟩ := hinv
      have hcur := currentSamplesOf_small M n hM (by omega)
      have hcp := chunkStep_clipPtr Mix mixRate stereo interpolate
        (currentSamplesOf M n) st (by
          have : currentSamplesOf M n * channelsOf stereo ≤ 2147483647 * 2 :=
            Nat.mul_le_mul (by omega) hch
          omega)
      have hreq : (chunkStep Mix mixRate stereo interpolate (currentSamplesOf M n) st).requests
          = st.requests ++ [(st.clipPtr, currentSamplesOf M n)] := rfl
      refine ⟨by omega, ?_, ?_, ?_⟩
      · rw [hreq, List.map_append, List.sum_append, hsum]
        simp only [List.map_cons, List.map_nil, List.sum_cons, List.sum_nil]
        omega
      · rw [hcp, hptr, ← Nat.add_mul]
        congr 1
        omega
      · intro k hk
        simp only [hreq] at hk ⊢
        rw [List.length_append, List.length_singleton] at hk
        by_cases hlt : k < st.requests.length
        · rw [List.getElem_append_left hlt, List.take_append_of_le_length (by omega)]
          exact hall k hlt
        · have hkeq : k = st.requests.length := by omega
          subst hkeq
          rw [List.getElem_append_right (by omega), List.take_left]
          simp only [Nat.sub_self, List.getElem_cons_zero, hsum, hptr]
          refine ⟨by omega, by omega, by omega, trivial⟩)
    fuel N ⟨srcs, mem, 0, []⟩ hfuel (by omega)
    ⟨le_refl _, by simp, by simp, by intro k hk; simp at hk⟩
  exact ⟨r, hr, ⟨by simpa using hsum, hall⟩, by simpa using hptr⟩

theorem mixSources_recordMix (c n : Nat) (mixRate : Int) (stereo interpolate : Bool) :
    ∀ (srcs : List (List (Nat × Nat))) (mem : Nat → Int),
      mixSources recordMix c n mixRate stereo interpolate srcs mem =
        (srcs.map (fun s => s ++ [(c, n)]), mem) := by
  intro srcs
  induction srcs with
  | nil => intro mem; rfl
  | cons s rest ih => intro mem; simp [mixSources, ih, recordMix]

theorem mixLoop_recorded (mixRate : Int) (stereo interpolate : Bool) (M N : Nat)
    (hM0 : 0 < M) (hM : M < 2147483648) (hN : N < 4294967296) (fuel : Nat)
    (hfuel : N ≤ fuel) (logs : List (List (Nat × Nat))) (mem : Nat → Int) :
    ∃ r, mixLoop recordMix mixRate stereo interpolate M fuel N ⟨logs, mem, 0, []⟩ = some r ∧
      r.sources = logs.map (fun s => s ++ r.requests) ∧ r.clip = mem := by
  obtain ⟨r, hr, h⟩ := mixLoop_invariant recordMix mixRate stereo interpolate M hM0 hM
    (fun _ st => st.sources = logs.map (fun s => s ++ st.requests) ∧ st.clip = mem)
    (by
      intro n st _ _ hinv
      simp only [chunkStep, mixSources_recordMix, hinv.1, hinv.2, List.map_map,
        Function.comp_def, List.append_assoc, and_self])
    fuel N ⟨logs, mem, 0, []⟩ hfuel hN (by simp)
  exact ⟨r, hr, h⟩

/-- The requests of the chunk loop and its cursor do not depend on the sources. -/
theorem mixLoop_requests_same {S T : Type} (Mix : MixFn S) (Mix2 : MixFn T) (mixRate : Int)
    (stereo interpolate : Bool) (M : Nat) :
    ∀ (fuel n : Nat) (st : MixLoopState S) (st2 : MixLoopState T),
      st.clipPtr = st2.clipPtr → st.requests = st2.requests →
      (mixLoop Mix mixRate stereo interpolate M fuel n st).map
          (fun r => (r.clipPtr, r.requests)) =
        (mixLoop Mix2 mixRate stereo interpolate M fuel n st2).map
          (fun r => (r.clipPtr, r.requests)) := by
  intro fuel
  induction fuel with
  | zero =>
    intro n st st2 h1 h2
    by_cases h0 : n = 0
    · simp [mixLoop, h0, h1, h2]
    · simp [mixLoop, h0]
  | succ fuel ih =>
    intro n st st2 h1 h2
    by_cases h0 : n = 0
    · subst h0
      simp [mixLoop_zero_left, h1, h2]
    · rw [mixLoop_succ _ _ _ _ _ _ _ _ h0, mixLoop_succ _ _ _ _ _ _ _ _ h0]
      apply ih
      · simp [chunkStep, h1]
      · simp [chunkStep, h1, h2]

/-- C9. For every mix rate in `[11025, 48000]`, every positive decode buffer length (the
`int` product `mixRate_ * DECODE_BUFFER_LENGTH` being defined, that is, below `2 ^ 31`)
and every frame count `N` below `2 ^ 31`, the chunk loop ends within `N` passes;
`maxSamples` is `mixRate * DECODE_BUFFER_LENGTH / 1000 / 4` and at least 1; request `k` asks for
`min(maxSamples, remaining)` frames, between 1 and `maxSamples`, at the slot reached so
far; the frames asked sum to `N`; the cursor ends `N * channelCount` slots past the
start. Sources that record their requests each receive exactly these requests. -/
theorem mixLoop_chunks {S : Type} (Mix : MixFn S) (mixRate D : Int)
    (stereo interpolate : Bool) (N fuel : Nat) (srcs : List S) (mem : Nat → Int)
    (hr1 : 11025 ≤ mixRate) (hr2 : mixRate ≤ 48000) (hD : 0 < D)
    (hprod : mixRate * D < 2147483648) (hN : N < 2147483648) (hfuel : N ≤ fuel) :
    ((maxSamples mixRate D : Nat) : Int) = mixRate * D / 1000 / 4 ∧
    1 ≤ maxSamples mixRate D ∧
    (∃ r, mixLoop Mix mixRate stereo interpolate (maxSamples mixRate D) fuel N
        ⟨srcs, mem, 0, []⟩ = some r ∧
      ChunkRequests (maxSamples mixRate D) N (channelsOf stereo) r.requests ∧
      r.clipPtr = N * channelsOf stereo) ∧
    ∀ (logs : List (List (Nat × Nat))),
      ∃ r, mixLoop recordMix mixRate stereo interpolate (maxSamples mixRate D) fuel N
          ⟨logs, mem, 0, []⟩ = some r ∧
        ChunkRequests (maxSamples mixRate D) N (channelsOf stereo) r.requests ∧
        r.sources = logs.map (fun s => s ++ r.requests) := by
  have _ := hr2
  obtain ⟨hM0, hM⟩ := maxSamples_supported mixRate D hr1 hD hprod
  refine ⟨maxSamples_eq mixRate D (by nlinarith) hprod, hM0,
    mixLoop_requests Mix mixRate stereo interpolate _ N hM0 hM hN fuel hfuel srcs mem, ?_⟩
  intro logs
  obtain ⟨r, hr, hreq, _⟩ := mixLoop_requests recordMix mixRate stereo interpolate _ N hM0 hM
    hN fuel hfuel logs mem
  obtain ⟨r2, hr2, hsrc, _⟩ := mixLoop_recorded mixRate stereo interpolate _ N hM0 hM
    (by omega) fuel hfuel logs mem
  rw [hr] at hr2
  cases hr2
  exact ⟨r, hr, hreq, hsrc⟩

/-- C9, an instance: 2500 frames at 44100 Hz with a decode buffer of 100 ms. -/
theorem mixLoop_chunks_witness :
    maxSamples 44100 100 = 1102 ∧
    ∃ r, mixLoop rampMix 44100 true false (maxSamples 44100 100) 2500 2500
        ⟨[0, 7], fun _ => 0, 0, []⟩ = some r ∧
      ChunkRequests (maxSamples 44100 100) 2500 (channelsOf true) r.requests ∧
      r.clipPtr = 2500 * channelsOf true :=
  ⟨by decide,
    (mixLoop_chunks rampMix 44100 100 true false 2500 2500 [0, 7] (fun _ => 0)
      (by decide) (by decide) (by decide) (by decide) (by decide) (by decide)).2.2.1⟩

/-! ## Bounds of the accesses of MixOutput -/

theorem mixLoop_request_bounds {S : Type} (Mix : MixFn S) (mixRate : Int)
    (stereo interpolate : Bool) (M N : Nat) (hM0 : 0 < M) (hM : M < 2147483648)
    (hN : N * channelsOf stereo < 4294967296) (fuel : Nat) (hfuel : N ≤ fuel)
    (srcs : List S) (mem : Nat → Int) :
    ∃ r, mixLoop Mix mixRate stereo interpolate M fuel N ⟨srcs, mem, 0, []⟩ = some r ∧
      r.clipPtr = N * channelsOf stereo ∧
      ∀ q ∈ r.requests, q.1 + q.2 * channelsOf stereo ≤ N * channelsOf stereo := by
  have hch : 1 ≤ channelsOf stereo := by unfold channelsOf; split_ifs <;> omega
  have hNlt : N < 4294967296 := by
    have : N * 1 ≤ N * channelsOf stereo := Nat.mul_le_mul_left _ hch
    omega
  obtain ⟨r, hr, _, hptr, hall⟩ := mixLoop_invariant Mix mixRate stereo interpolate
    M hM0 hM
    (fun n st => n ≤ N ∧ st.clipPtr = (N - n) * channelsOf stereo ∧
      ∀ q ∈ st.requests, q.1 + q.2 * channelsOf stereo ≤ N * channelsOf stereo)
    (by
      intro n st hn0 hn2 hinv
      obtain ⟨hnN, hptr, hall⟩ := hinv
      obtain ⟨c1, c2, _, _⟩ := currentSamplesOf_bounds M n hM0 hM hn0 hn2
      have hmul : currentSamplesOf M n * channelsOf stereo ≤ N * channelsOf stereo :=
        Nat.mul_le_mul_right _ (by omega)
      have hcp := chunkStep_clipPtr Mix mixRate stereo interpolate
        (currentSamplesOf M n) st (by omega)
      have hle : (N - n + currentSamplesOf M n) * channelsOf stereo ≤ N * channelsOf stereo :=
        Nat.mul_le_mul_right _ (by omega)
      refine ⟨by omega, ?_, ?_⟩
      · rw [hcp, hptr, ← Nat.add_mul]
        congr 1
        omega
      · intro q hq
        have hreq : (chunkStep Mix mixRate stereo interpolate (currentSamplesOf M n)
            st).requests = st.requests ++ [(st.clipPtr, currentSamplesOf M n)] := rfl
        rw [hreq, List.mem_append, List.mem_singleton] at hq
        rcases hq with hq | hq
        · exact hall q hq
        · subst hq
          simp only [hptr]
          rw [← Nat.add_mul]
          exact hle)
    fuel N ⟨srcs, mem, 0, []⟩ hfuel hNlt
    ⟨le_refl _, by simp, by intro q hq; simp at hq⟩
  exact ⟨r, hr, by simpa using hptr, hall⟩

theorem clipSamplesOf_le_capacity (stereo sixteenBit : Bool) (bytes samples : Nat)
    (h : bytes ≤ samples * (channelsOf stereo * (if sixteenBit then 2 else 1))) :
    clipSamplesOf sixteenBit bytes ≤ samples * channelsOf stereo := by
  rw [clipSamplesOf_eq]
  unfold channelsOf at *
  cases stereo <;> cases sixteenBit <;> simp at h ⊢ <;> omega

/-! ## Audio::Update with sources that deregister themselves -/

theorem eraseFirst_append_of_not_mem {S : Type} [DecidableEq S] (x : S) :
    ∀ (pre post : List S), x ∉ pre → eraseFirst x (pre ++ x :: post) = pre ++ post := by
  intro pre
  induction pre with
  | nil => intro post _; simp [eraseFirst]
  | cons y ys ih =>
    intro post hx
    have hne : y ≠ x := fun h => hx (by simp [h])
    have hx2 : x ∉ ys := fun h => hx (by simp [h])
    simp [eraseFirst, hne, ih post hx2]

theorem updateLoop_done {S W : Type} (srcUpdate : S → W → W) (reg : W → List S)
    (fuel i : Nat) (w : W) (h : ¬ i < (reg w).length) :
    updateLoop srcUpdate reg fuel i w = some w := by
  cases fuel <;> simp [updateLoop, h]

theorem updateLoop_selfRemoving {S F : Type} [DecidableEq S] (removes : S → Bool) :
    ∀ (pre post : List S) (w : UpdateWorld S F) (fuel : Nat),
      w.audio.soundSources_ = pre ++ post → (pre ++ post).Nodup →
      (pre ++ post).length < 4294967296 → pre.length ≤ fuel →
      ∃ w2, updateLoop (selfRemovingUpdate removes) (fun v => v.audio.soundSources_) fuel
          ((pre.length + 4294967295) % 4294967296) w = some w2 ∧
        w2.updated = w.updated ++ pre.reverse ∧
        w2.audio.soundSources_ = pre.filter (fun s => !removes s) ++ post := by
  intro pre
  induction pre using List.reverseRecOn with
  | nil =>
    intro post w fuel hw _ hlen _
    refine ⟨w, updateLoop_done _ _ _ _ _ ?_, by simp, by simpa using hw⟩
    simp only [hw, List.nil_append, List.length_nil] at hlen ⊢
    omega
  | append_singleton pre x ih =>
    intro post w fuel hw hnd hlen hfuel
    rw [List.length_append, List.length_singleton] at hfuel
    obtain ⟨f, rfl⟩ : ∃ f, fuel = f + 1 := ⟨fuel - 1, by omega⟩
    have hlen2 : pre.length + 1 + post.length < 4294967296 := by
      simp only [List.length_append, List.length_singleton] at hlen
      exact hlen
    have hidx : ((pre ++ [x]).length + 4294967295) % 4294967296 = pre.length := by
      rw [List.length_append, List.length_singleton]
      omega
    have hlt : pre.length < w.audio.soundSources_.length := by
      rw [hw]
      simp only [List.length_append, List.length_singleton]
      omega
    have hget : w.audio.soundSources_.get ⟨pre.length, hlt⟩ = x := by
      simp only [List.get_eq_getElem, hw, List.append_assoc, List.singleton_append]
      rw [List.getElem_append_right (le_refl _)]
      simp
    have hxpre : x ∉ pre := by
      intro hmem
      rw [List.append_assoc] at hnd
      have := (List.nodup_append.mp hnd).2.2
      exact this hmem (by simp) 
    rw [hidx]
    simp only [updateLoop, dif_pos hlt, hget]
    by_cases hrem : removes x = true
    · have hw2 : (selfRemovingUpdate removes x w).audio.soundSources_ = pre ++ post := by
        simp only [selfRemovingUpdate, hrem, if_true, RemoveSoundSource, hw,
          List.append_assoc, List.singleton_append]
        exact eraseFirst_append_of_not_mem x pre post hxpre
      have hnd2 : (pre ++ post).Nodup := by
        rw [List.append_assoc] at hnd
        exact hnd.sublist (List.Sublist.append_left (List.sublist_append_right [x] post) pre)
      obtain ⟨w2, h1, h2, h3⟩ := ih post (selfRemovingUpdate removes x w) f hw2 hnd2
        (by simp only [List.length_append]; omega) (by omega)
      refine ⟨w2, h1, ?_, ?_⟩
      · rw [h2]
        simp [selfRemovingUpdate, hrem]
      · rw [h3]
        simp [List.filter_append, hrem]
    · have hw2 : (selfRemovingUpdate removes x w).audio.soundSources_ = pre ++ (x :: post) := by
        simp [selfRemovingUpdate, hrem, hw]
      have hnd2 : (pre ++ (x :: post)).Nodup := by
        simpa [List.append_assoc] using hnd
      obtain ⟨w2, h1, h2, h3⟩ := ih (x :: post) (selfRemovingUpdate removes x w) f hw2 hnd2
        (by simp only [List.length_append, List.length_cons]; omega) (by omega)
      refine ⟨w2, h1, ?_, ?_⟩
      · rw [h2]
        simp [selfRemovingUpdate, hrem]
      · rw [h3]
        simp [List.filter_append, hrem]

/-- C4. The registry holds no reference twice (and its size fits an `unsigned`); the
sources picked out by `removes` call `RemoveSoundSource` on themselves during their own
update. Then one `Audio::Update` ends within `Size()` passes, it has invoked `Update`
exactly once on every source registered when the pass began (in reverse registry order)
and on no other, and the registry afterwards holds exactly the sources that did not
remove themselves, in their original order. -/
theorem Update_self_removal {S F : Type} [DecidableEq S] (removes : S → Bool)
    (w : UpdateWorld S F) (fuel : Nat) (hnd : w.audio.soundSources_.Nodup)
    (hlen : w.audio.soundSources_.length < 4294967296)
    (hfuel : w.audio.soundSources_.length ≤ fuel) :
    ∃ w2, Update (selfRemovingUpdate removes) (fun v => v.audio.soundSources_) fuel w
        = some w2 ∧
      w2.updated = w.updated ++ w.audio.soundSources_.reverse ∧
      (∀ s, w2.updated.count s =
        w.updated.count s + (if s ∈ w.audio.soundSources_ then 1 else 0)) ∧
      w2.audio.soundSources_ = w.audio.soundSources_.filter (fun s => !removes s) := by
  obtain ⟨w2, h1, h2, h3⟩ := updateLoop_selfRemoving removes w.audio.soundSources_ [] w fuel
    (by simp) (by simpa using hnd) (by simpa using hlen) hfuel
  refine ⟨w2, h1, h2, ?_, by simpa using h3⟩
  intro s
  rw [h2, List.count_append, List.count_reverse]
  congr 1
  by_cases hs : s ∈ w.audio.soundSources_
  · rw [if_pos hs, List.count_eq_one_of_mem hnd hs]
  · rw [if_neg hs, List.count_eq_zero_of_not_mem hs]

/-- C4, an instance: sources 1, 2, 3, 4 of which 2 and 4 remove themselves. -/
theorem Update_self_removal_witness :
    ∃ w2, Update (selfRemovingUpdate (fun s => s % 2 == 0))
        (fun v : UpdateWorld Nat Int => v.audio.soundSources_) 4
        ⟨sampleAudio true true [1, 2, 3, 4], []⟩ = some w2 ∧
      w2.updated = [4, 3, 2, 1] ∧ w2.audio.soundSources_ = [1, 3] :=
  let ⟨w2, h1, h2, _, h4⟩ := Update_self_removal (fun s => s % 2 == 0)
    (⟨sampleAudio true true [1, 2, 3, 4], []⟩ : UpdateWorld Nat Int) 4
    (by decide) (by decide) (by decide)
  ⟨w2, h1, h2, h4⟩

/-! ## Master gain -/

/-- C7. For a category value that is not one of the `MAX_SOUND_TYPES` categories and
any gain, `SetMasterGain` returns the engine unchanged (every master gain and every
other member), and `GetMasterGain` returns `0.0`, before and after. -/
theorem masterGain_out_of_range {S F : Type} (MAX_SOUND_TYPES : Nat) (clamp01 : F → F)
    (zero : F) (a : Audio S F) (type : Nat) (gain : F) (h : MAX_SOUND_TYPES ≤ type) :
    SetMasterGain MAX_SOUND_TYPES clamp01 a type gain = a ∧
    GetMasterGain MAX_SOUND_TYPES zero a type = zero ∧
    GetMasterGain MAX_SOUND_TYPES zero (SetMasterGain MAX_SOUND_TYPES clamp01 a type gain)
      type = zero := by
  have h2 : type ≥ MAX_SOUND_TYPES := h
  simp only [SetMasterGain, GetMasterGain, if_pos h2, and_self]

/-- C7, an instance: category 7 of 5, gain 3. -/
theorem masterGain_out_of_range_witness :
    SetMasterGain 5 (fun g => Clamp g 0 1) freshAudio 7 3 = freshAudio ∧
    GetMasterGain 5 0 freshAudio 7 = 0 ∧
    GetMasterGain 5 0 (SetMasterGain 5 (fun g => Clamp g 0 1) freshAudio 7 3) 7 = 0 :=
  masterGain_out_of_range 5 (fun g => Clamp g 0 1) 0 freshAudio 7 3 (by decide)

/-! ## Device lifecycle -/

theorem Release_playing {S F : Type} (useSDL : Bool) (a : Audio S F) :
    (Release useSDL a).playing_ = false := by
  unfold Release Stop
  cases useSDL
  · cases h : a.dsBuffer_ <;> simp [h]
  · cases h : a.clipBuffer_ <;> simp [h]

theorem Release_not_initialized {S F : Type} (useSDL : Bool) (a : Audio S F) :
    IsInitialized useSDL (Release useSDL a) = false := by
  unfold IsInitialized Release Stop
  cases useSDL
  · cases h : a.dsBuffer_ <;> simp [h]
  · cases h : a.clipBuffer_ <;> simp [h]

/-- What a failing `Play` leaves: nothing changed, not playing; the buffer exists exactly
when this is the DirectSound build, the sound buffer was there and the thread start is
what failed. -/
theorem Play_failure {S F : Type} (useSDL : Bool) (env : Backend) (a : Audio S F)
    (h : (Play useSDL env a).1 = false) :
    (Play useSDL env a).2 = a ∧ a.playing_ = false ∧
      (IsInitialized useSDL a = true ↔
        (useSDL = false ∧ a.dsBuffer_ = true ∧ env.startOk = false)) := by
  unfold Play at h ⊢
  unfold IsInitialized
  cases useSDL <;> cases hp : a.playing_ <;> cases hb : a.dsBuffer_ <;>
    cases hs : env.startOk <;> cases hc : a.clipBuffer_ <;> simp [hp, hb, hs, hc] at h ⊢

/-- What a succeeding `Play` leaves: the same engine, playing. -/
theorem Play_success {S F : Type} (useSDL : Bool) (env : Backend) (a : Audio S F)
    (h : (Play useSDL env a).1 = true) :
    (Play useSDL env a).2 = { a with playing_ := true } := by
  unfold Play at h ⊢
  cases useSDL <;> cases hp : a.playing_ <;> cases hb : a.dsBuffer_ <;>
    cases hs : env.startOk <;> cases hc : a.clipBuffer_ <;> simp [hp, hb, hs, hc] at h ⊢ <;>
    (cases a; simp_all)

theorem Release_dsObject {S F : Type} (useSDL : Bool) (a : Audio S F) :
    (Release useSDL a).dsObject_ = a.dsObject_ := by
  unfold Release Stop
  cases useSDL
  · cases h : a.dsBuffer_ <;> simp [h]
  · cases h : a.clipBuffer_ <;> simp [h]

/-- Every return of `SetMode` is either the result of the final `Play`, reached with the
buffer in place and `playing_` clear, or a failure of an earlier step, which leaves the
released engine. -/
theorem SetMode_returns {S F : Type} (useSDL : Bool) (env : Backend) (a : Audio S F)
    (bufferLengthMSec mixRate : Int) (sixteenBit stereo interpolate : Bool) :
    (∃ b, SetMode useSDL env a bufferLengthMSec mixRate sixteenBit stereo interpolate =
        Play useSDL env b ∧ b.playing_ = false ∧ IsInitialized useSDL b = true ∧
        (useSDL = false → b.dsBuffer_ = true ∧ dsStepsOk env a)) ∨
    ((SetMode useSDL env a bufferLengthMSec mixRate sixteenBit stereo interpolate).1 = false ∧
      (SetMode useSDL env a bufferLengthMSec mixRate sixteenBit stereo interpolate).2.playing_
        = false ∧
      IsInitialized useSDL
        (SetMode useSDL env a bufferLengthMSec mixRate sixteenBit stereo interpolate).2
        = false ∧
      (useSDL = false → ¬ dsStepsOk env a)) := by
  have hp := Release_playing useSDL a
  have hi := Release_not_initialized useSDL a
  have ho := Release_dsObject useSDL a
  cases useSDL
  · simp only [SetMode, Bool.false_eq_true, if_false]
    by_cases h1 : (!(Release false a).dsObject_ && !env.createOk) = true
    · rw [if_pos h1]
      refine Or.inr ⟨rfl, hp, hi, fun _ hs => ?_⟩
      rw [ho] at h1
      rcases hs.1 with h | h <;> simp [h] at h1
    · rw [if_neg h1]
      rw [ho] at h1
      have hobj : a.dsObject_ = true ∨ env.createOk = true := by
        cases hd : a.dsObject_ <;> cases hc : env.createOk <;> simp [hd, hc] at h1 ⊢
      by_cases h2 : (!env.coopOk) = true
      · rw [if_pos h2]
        refine Or.inr ⟨rfl, hp, hi, fun _ hs => ?_⟩
        simp [hs.2.1] at h2
      · rw [if_neg h2]
        by_cases h3 : (!env.capsOk) = true
        · rw [if_pos h3]
          refine Or.inr ⟨rfl, hp, hi, fun _ hs => ?_⟩
          simp [hs.2.2.1] at h3
        · rw [if_neg h3]
          by_cases h4 : (!env.createBufferOk) = true
          · rw [if_pos h4]
            refine Or.inr ⟨rfl, hp, hi, fun _ hs => ?_⟩
            simp [hs.2.2.2] at h4
          · rw [if_neg h4]
            refine Or.inl ⟨_, rfl, hp, rfl, fun _ => ⟨rfl, hobj, ?_, ?_, ?_⟩⟩
            · simpa using h2
            · simpa using h3
            · simpa using h4
  · simp only [SetMode, if_true]
    by_cases h1 : (!env.openOk) = true
    · rw [if_pos h1]
      exact Or.inr ⟨rfl, rfl, hi, fun h => absurd h (by simp)⟩
    · rw [if_neg h1]
      refine Or.inl ⟨_, rfl, ?_, rfl, fun h => absurd h (by simp)⟩
      by_cases hch : env.obtainedChannels = 2 <;>
        by_cases hfm : (env.obtainedFormat = AUDIO_S16SYS ∨ env.obtainedFormat = AUDIO_S16LSB
          ∨ env.obtainedFormat = AUDIO_S16MSB) <;>
        simp only [hch, hfm, if_true, if_false]

/-- The DirectSound branch of `SetMode` assigns both format flags from the negotiated
format: after a success the sizes agree with the flags (in `unsigned` arithmetic) and
the engine is initialized and playing. -/
theorem SetMode_directSound_sizes {S F : Type} (env : Backend) (a : Audio S F)
    (bufferLengthMSec mixRate : Int) (sixteenBit stereo interpolate : Bool)
    (h : (SetMode false env a bufferLengthMSec mixRate sixteenBit stereo interpolate).1
      = true) :
    (SetMode false env a bufferLengthMSec mixRate sixteenBit stereo interpolate).2.sampleSize_
      = channelCount
          (SetMode false env a bufferLengthMSec mixRate sixteenBit stereo interpolate).2 *
        bytesPerSample
          (SetMode false env a bufferLengthMSec mixRate sixteenBit stereo interpolate).2 ∧
    (SetMode false env a bufferLengthMSec mixRate sixteenBit stereo interpolate).2.bufferSize_
      = ((SetMode false env a bufferLengthMSec mixRate sixteenBit stereo
            interpolate).2.bufferSamples_ *
          (SetMode false env a bufferLengthMSec mixRate sixteenBit stereo
            interpolate).2.sampleSize_) % 4294967296 ∧
    IsInitialized false
      (SetMode false env a bufferLengthMSec mixRate sixteenBit stereo interpolate).2 = true ∧
    (SetMode false env a bufferLengthMSec mixRate sixteenBit stereo interpolate).2.playing_
      = true := by
  revert h
  simp only [SetMode, Bool.false_eq_true, if_false]
  by_cases h1 : (!(Release false a).dsObject_ && !env.createOk) = true
  · rw [if_pos h1]; intro h; exact absurd h (by simp)
  rw [if_neg h1]
  by_cases h2 : (!env.coopOk) = true
  · rw [if_pos h2]; intro h; exact absurd h (by simp)
  rw [if_neg h2]
  by_cases h3 : (!env.capsOk) = true
  · rw [if_pos h3]; intro h; exact absurd h (by simp)
  rw [if_neg h3]
  by_cases h4 : (!env.createBufferOk) = true
  · rw [if_pos h4]; intro h; exact absurd h (by simp)
  rw [if_neg h4]
  intro h
  rw [Play_success false env _ h]
  simp only [channelCount, bytesPerSample, channelsOf, IsInitialized, Bool.false_eq_true,
    if_false, and_true]
  cases (if (!env.caps16Bit) = true then false else sixteenBit) <;>
    cases (if (!env.capsStereo) = true then false else stereo) <;> simp

/-- C5 fails in the SDL branch: after a mode with stereo 16-bit output, a `SetMode` for
which the device negotiates mono 8-bit succeeds and leaves `stereo_` and `sixteenBit_`
set, so `bufferSize_` (1024) is not `bufferSamples_ * channelCount * bytesPerSample`
(1024 * 2 * 2), although `IsInitialized()` is true. -/
theorem SetMode_sdl_keeps_stale_flags :
    (SetMode true (sdlAnswers 44100 AUDIO_S16SYS 2 2048) freshAudio 100 44100 true true
      false).1 = true ∧
    (SetMode true (sdlAnswers 22050 AUDIO_U8 1 1024)
      (SetMode true (sdlAnswers 44100 AUDIO_S16SYS 2 2048) freshAudio 100 44100 true true
        false).2 100 22050 false false false).1 = true ∧
    IsInitialized true (SetMode true (sdlAnswers 22050 AUDIO_U8 1 1024)
      (SetMode true (sdlAnswers 44100 AUDIO_S16SYS 2 2048) freshAudio 100 44100 true true
        false).2 100 22050 false false false).2 = true ∧
    (SetMode true (sdlAnswers 22050 AUDIO_U8 1 1024)
      (SetMode true (sdlAnswers 44100 AUDIO_S16SYS 2 2048) freshAudio 100 44100 true true
        false).2 100 22050 false false false).2.stereo_ = true ∧
    (SetMode true (sdlAnswers 22050 AUDIO_U8 1 1024)
      (SetMode true (sdlAnswers 44100 AUDIO_S16SYS 2 2048) freshAudio 100 44100 true true
        false).2 100 22050 false false false).2.sixteenBit_ = true ∧
    (SetMode true (sdlAnswers 22050 AUDIO_U8 1 1024)
      (SetMode true (sdlAnswers 44100 AUDIO_S16SYS 2 2048) freshAudio 100 44100 true true
        false).2 100 22050 false false false).2.sampleSize_ = 1 ∧
    (SetMode true (sdlAnswers 22050 AUDIO_U8 1 1024)
      (SetMode true (sdlAnswers 44100 AUDIO_S16SYS 2 2048) freshAudio 100 44100 true true
        false).2 100 22050 false false false).2.bufferSamples_ = 1024 ∧
    (SetMode true (sdlAnswers 22050 AUDIO_U8 1 1024)
      (SetMode true (sdlAnswers 44100 AUDIO_S16SYS 2 2048) freshAudio 100 44100 true true
        false).2 100 22050 false false false).2.bufferSize_ = 1024 ∧
    channelCount (SetMode true (sdlAnswers 22050 AUDIO_U8 1 1024)
      (SetMode true (sdlAnswers 44100 AUDIO_S16SYS 2 2048) freshAudio 100 44100 true true
        false).2 100 22050 false false false).2 *
      bytesPerSample (SetMode true (sdlAnswers 22050 AUDIO_U8 1 1024)
      (SetMode true (sdlAnswers 44100 AUDIO_S16SYS 2 2048) freshAudio 100 44100 true true
        false).2 100 22050 false false false).2 = 4 := by
  decide

/-- C6, as the claim states it, fails: when the playback thread cannot be started, the
DirectSound `SetMode` returns false with the sound buffer created, and so does `Play` on
an engine that has its buffer; `IsInitialized()` is true after both. -/
theorem failed_thread_start_stays_initialized :
    (SetMode false (dsAnswers false) freshAudio 100 44100 true true false).1 = false ∧
    IsInitialized false
      (SetMode false (dsAnswers false) freshAudio 100 44100 true true false).2 = true ∧
    (Play false (dsAnswers false)
      (Stop (SetMode false (dsAnswers true) freshAudio 100 44100 true true false).2)).1
      = false ∧
    IsInitialized false (Play false (dsAnswers false)
      (Stop (SetMode false (dsAnswers true) freshAudio 100 44100 true true false).2)).2
      = true := by
  decide

/-- C6, amended. Whenever `SetMode` or `Play` returns false, `playing_` is false right
after the call. `IsInitialized()` is false as well, with one exception, which is exact:
it is true after the failed call if and only if the failure is the start of the playback
thread, that is, this is the DirectSound build, `Thread::Start()` returns false and the
sound buffer exists when `Play` runs (for `SetMode`: every step before the final `Play`
succeeded; for `Play`: the buffer was there). Then the sound buffer is kept. -/
theorem failure_leaves_not_playing {S F : Type} (useSDL : Bool) (env : Backend)
    (a : Audio S F) (bufferLengthMSec mixRate : Int) (sixteenBit stereo interpolate : Bool) :
    ((SetMode useSDL env a bufferLengthMSec mixRate sixteenBit stereo interpolate).1 = false →
      (SetMode useSDL env a bufferLengthMSec mixRate sixteenBit stereo interpolate).2.playing_
        = false ∧
      (IsInitialized useSDL
        (SetMode useSDL env a bufferLengthMSec mixRate sixteenBit stereo interpolate).2 = true
        ↔ (useSDL = false ∧ dsStepsOk env a ∧ env.startOk = false))) ∧
    ((Play useSDL env a).1 = false →
      (Play useSDL env a).2.playing_ = false ∧
      (IsInitialized useSDL (Play useSDL env a).2 = true
        ↔ (useSDL = false ∧ a.dsBuffer_ = true ∧ env.startOk = false))) := by
  constructor
  · intro hfail
    rcases SetMode_returns useSDL env a bufferLengthMSec mixRate sixteenBit stereo interpolate
      with ⟨b, hb, _, hinit, hds⟩ | ⟨_, h2, h3, h4⟩
    · rw [hb] at hfail ⊢
      obtain ⟨e1, e2, e3⟩ := Play_failure useSDL env b hfail
      rw [e1]
      refine ⟨e2, ?_⟩
      constructor
      · intro hi
        obtain ⟨u, _, st⟩ := e3.mp hi
        exact ⟨u, (hds u).2, st⟩
      · intro _
        exact hinit
    · refine ⟨h2, ?_⟩
      constructor
      · intro hi
        rw [h3] at hi
        exact absurd hi (by simp)
      · rintro ⟨u, hs, _⟩
        exact absurd hs (h4 u)
  · intro hfail
    obtain ⟨e1, e2, e3⟩ := Play_failure useSDL env a hfail
    rw [e1]
    exact ⟨e2, e3⟩

/-- C6 amended, an instance: the DirectSound build, everything succeeds but the start of
the playback thread. -/
theorem failure_leaves_not_playing_witness :
    (SetMode false (dsAnswers false) freshAudio 100 44100 true true false).1 = false ∧
    (SetMode false (dsAnswers false) freshAudio 100 44100 true true false).2.playing_
      = false ∧
    (IsInitialized false
      (SetMode false (dsAnswers false) freshAudio 100 44100 true true false).2 = true
      ↔ (false = false ∧ dsStepsOk (dsAnswers false) freshAudio ∧
        (dsAnswers false).startOk = false)) :=
  ⟨by decide,
    (failure_leaves_not_playing false (dsAnswers false) freshAudio 100 44100 true true
      false).1 (by decide)⟩

/-! ## Buffers of a successful SetMode -/

/-- Frame count of the DirectSound buffer when the `int` product of length and rate is
defined: between 551 and 2147483 frames. -/
theorem numSamples_bounds (bl mr : Int) (h : Max bl 50 * Clamp mr 11025 48000 < 2147483648) :
    551 ≤ toUnsigned ((wrapInt (Max bl 50 * Clamp mr 11025 48000)).tdiv 1000) ∧
      toUnsigned ((wrapInt (Max bl 50 * Clamp mr 11025 48000)).tdiv 1000) ≤ 2147483 := by
  have hb : 50 ≤ Max bl 50 := by unfold Max; split_ifs <;> omega
  have hm : 11025 ≤ Clamp mr 11025 48000 := by unfold Clamp; split_ifs <;> omega
  have hx : 551250 ≤ Max bl 50 * Clamp mr 11025 48000 := by nlinarith
  generalize Max bl 50 * Clamp mr 11025 48000 = x at h hx
  have hw : wrapInt x = x := by
    unfold wrapInt toInt toUnsigned
    split_ifs <;> omega
  rw [hw, Int.tdiv_eq_ediv (by omega) (by norm_num)]
  unfold toUnsigned
  omega

/-- Members a successful DirectSound `SetMode` leaves. -/
theorem SetMode_directSound_fields {S F : Type} (env : Backend) (a b : Audio S F)
    (bl mr : Int) (sb st ip : Bool)
    (hset : SetMode false env a bl mr sb st ip = (true, b)) :
    b.bufferSamples_ = toUnsigned ((wrapInt (Max bl 50 * Clamp mr 11025 48000)).tdiv 1000) ∧
      b.sampleSize_ = channelsOf b.stereo_ * (if b.sixteenBit_ then 2 else 1) ∧
      b.bufferSize_ = (b.bufferSamples_ * b.sampleSize_) % 4294967296 ∧
      b.clipBuffer_ = some ((b.bufferSamples_ * channelsOf b.stereo_) % 4294967296) ∧
      b.mixRate_ = Clamp mr 11025 48000 := by
  have h : (SetMode false env a bl mr sb st ip).1 = true := by rw [hset]
  have hb : b = (SetMode false env a bl mr sb st ip).2 := by rw [hset]
  subst hb
  clear hset
  revert h
  simp only [SetMode, Bool.false_eq_true, if_false]
  by_cases h1 : (!(Release false a).dsObject_ && !env.createOk) = true
  · rw [if_pos h1]; intro h; exact absurd h (by simp)
  rw [if_neg h1]
  by_cases h2 : (!env.coopOk) = true
  · rw [if_pos h2]; intro h; exact absurd h (by simp)
  rw [if_neg h2]
  by_cases h3 : (!env.capsOk) = true
  · rw [if_pos h3]; intro h; exact absurd h (by simp)
  rw [if_neg h3]
  by_cases h4 : (!env.createBufferOk) = true
  · rw [if_pos h4]; intro h; exact absurd h (by simp)
  rw [if_neg h4]
  intro h
  rw [Play_success false env _ h]
  simp only [channelsOf, true_and]
  cases (if (!env.caps16Bit) = true then false else sb) <;>
    cases (if (!env.capsStereo) = true then false else st) <;> simp

/-- The buffer a successful DirectSound `SetMode` hands to the playback thread, when the
`int` product of length and rate is defined: the sample size is 1, 2 or 4, the buffer
size a positive multiple of it, at most 8589932 bytes; the products do not wrap. -/
theorem SetMode_directSound_buffer {S F : Type} (env : Backend) (a b : Audio S F)
    (bl mr : Int) (sb st ip : Bool)
    (hset : SetMode false env a bl mr sb st ip = (true, b))
    (hds : Max bl 50 * Clamp mr 11025 48000 < 2147483648) :
    (b.sampleSize_ = 1 ∨ b.sampleSize_ = 2 ∨ b.sampleSize_ = 4) ∧
      0 < b.bufferSize_ ∧ b.bufferSize_ % b.sampleSize_ = 0 ∧ b.bufferSize_ ≤ 8589932 ∧
      b.bufferSize_ = b.bufferSamples_ * b.sampleSize_ ∧
      b.sampleSize_ = channelsOf b.stereo_ * (if b.sixteenBit_ then 2 else 1) ∧
      b.clipBuffer_ = some (b.bufferSamples_ * channelsOf b.stereo_) := by
  obtain ⟨e1, e2, e3, e4, _⟩ := SetMode_directSound_fields env a b bl mr sb st ip hset
  obtain ⟨n1, n2⟩ := numSamples_bounds bl mr hds
  rw [← e1] at n1 n2
  have hch : channelsOf b.stereo_ = 1 ∨ channelsOf b.stereo_ = 2 := by
    unfold channelsOf; split_ifs <;> simp
  have hby : (if b.sixteenBit_ = true then 2 else 1) = 1 ∨
      (if b.sixteenBit_ = true then 2 else 1) = 2 := by
    split_ifs <;> simp
  have hcap : (b.bufferSamples_ * channelsOf b.stereo_) % 4294967296 =
      b.bufferSamples_ * channelsOf b.stereo_ := by
    rcases hch with h | h <;> rw [h] <;> omega
  rw [hcap] at e4
  have key : b.sampleSize_ = 1 ∨ b.sampleSize_ = 2 ∨ b.sampleSize_ = 4 := by
    rcases hch with h | h <;> rcases hby with g | g <;> rw [h, g] at e2 <;> omega
  have e5 : b.bufferSize_ = b.bufferSamples_ * b.sampleSize_ := by
    rw [e3]
    rcases key with k | k | k <;> rw [k] <;> omega
  refine ⟨key, ?_, ?_, ?_, e5, e2, e4⟩ <;> rw [e5] <;>
    rcases key with k | k | k <;> rw [k] <;> omega

/-- Members a successful SDL `SetMode` leaves: the sizes follow the negotiated format; of
the flags, only what the negotiated format sets is known. -/
theorem SetMode_sdl_fields {S F : Type} (env : Backend) (a b : Audio S F)
    (bl mr : Int) (sb st ip : Bool)
    (hset : SetMode true env a bl mr sb st ip = (true, b)) :
    b.clipBuffer_ = some (env.obtainedSamples * env.obtainedChannels) ∧
      b.bufferSize_ = (env.obtainedSamples * b.sampleSize_) % 4294967296 ∧
      b.bufferSamples_ = env.obtainedSamples ∧
      b.sampleSize_ = (if env.obtainedChannels = 2 then 2 else 1) *
        (if env.obtainedFormat = AUDIO_S16SYS ∨ env.obtainedFormat = AUDIO_S16LSB
          ∨ env.obtainedFormat = AUDIO_S16MSB then 2 else 1) ∧
      (env.obtainedChannels = 2 → b.stereo_ = true) ∧
      ((env.obtainedFormat = AUDIO_S16SYS ∨ env.obtainedFormat = AUDIO_S16LSB
          ∨ env.obtainedFormat = AUDIO_S16MSB) → b.sixteenBit_ = true) := by
  have h : (SetMode true env a bl mr sb st ip).1 = true := by rw [hset]
  have hb : b = (SetMode true env a bl mr sb st ip).2 := by rw [hset]
  subst hb
  clear hset
  revert h
  simp only [SetMode, if_true]
  by_cases h1 : (!env.openOk) = true
  · rw [if_pos h1]; intro h; exact absurd h (by simp)
  rw [if_neg h1]
  intro h
  rw [Play_success true env _ h]
  by_cases hch : env.obtainedChannels = 2 <;>
    by_cases hfm : (env.obtainedFormat = AUDIO_S16SYS ∨ env.obtainedFormat = AUDIO_S16LSB
      ∨ env.obtainedFormat = AUDIO_S16MSB) <;>
    simp only [hch, hfm, if_true, if_false] <;> simp

/-- The accumulation buffer of a successful `SetMode` holds the slots of every byte count
up to `bufferSize_`, in both builds and whatever the format flags hold: the DirectSound
branch sets flags and sizes together (the `int` product of length and rate being
defined); the SDL branch sizes the buffer from the negotiated format (of at least one
channel), and flags left over from an earlier mode only lower the slot count. The slot
count is also at most `bufferSamples_ * channelCount`. -/
theorem SetMode_capacity {S F : Type} (useSDL : Bool) (env : Backend) (a b : Audio S F)
    (bl mr : Int) (sb st ip : Bool)
    (hset : SetMode useSDL env a bl mr sb st ip = (true, b))
    (hsdl : useSDL = true → 1 ≤ env.obtainedChannels)
    (hds : useSDL = false → Max bl 50 * Clamp mr 11025 48000 < 2147483648) :
    ∃ cap, b.clipBuffer_ = some cap ∧ b.bufferSize_ < 4294967296 ∧
      ∀ bytes, bytes ≤ b.bufferSize_ →
        clipSamplesOf b.sixteenBit_ bytes ≤ cap ∧
        clipSamplesOf b.sixteenBit_ bytes ≤ b.bufferSamples_ * channelsOf b.stereo_ := by
  cases useSDL
  · obtain ⟨_, _, _, h4, h5, h6, h7⟩ :=
      SetMode_directSound_buffer env a b bl mr sb st ip hset (hds rfl)
    refine ⟨_, h7, by omega, ?_⟩
    intro bytes hbytes
    rw [h5, h6] at hbytes
    exact ⟨clipSamplesOf_le_capacity b.stereo_ b.sixteenBit_ bytes b.bufferSamples_ hbytes,
      clipSamplesOf_le_capacity b.stereo_ b.sixteenBit_ bytes b.bufferSamples_ hbytes⟩
  · obtain ⟨e1, e2, e3, e4, e5, e6⟩ := SetMode_sdl_fields env a b bl mr sb st ip hset
    have hch := hsdl rfl
    refine ⟨_, e1, by omega, ?_⟩
    intro bytes hbytes
    have hle := clipSamplesOf_le b.sixteenBit_ bytes
    have hmod : b.bufferSize_ ≤ env.obtainedSamples * b.sampleSize_ := by
      rw [e2]; exact Nat.mod_le _ _
    have hmono : env.obtainedSamples * 1 ≤ env.obtainedSamples * env.obtainedChannels :=
      Nat.mul_le_mul_left _ hch
    have hflag : env.obtainedSamples * 1 ≤ env.obtainedSamples * channelsOf b.stereo_ :=
      Nat.mul_le_mul_left _ (by unfold channelsOf; split_ifs <;> omega)
    rw [e3]
    by_cases hc2 : env.obtainedChannels = 2 <;>
      by_cases hfm : (env.obtainedFormat = AUDIO_S16SYS ∨ env.obtainedFormat = AUDIO_S16LSB
        ∨ env.obtainedFormat = AUDIO_S16MSB)
    · rw [if_pos hc2, if_pos hfm] at e4
      have hst : channelsOf b.stereo_ = 2 := by rw [e5 hc2]; rfl
      rw [clipSamplesOf_eq, e6 hfm, if_pos rfl, hc2, hst]
      rw [e4] at hmod
      omega
    · rw [if_pos hc2, if_neg hfm] at e4
      have hst : channelsOf b.stereo_ = 2 := by rw [e5 hc2]; rfl
      rw [e4] at hmod
      rw [hc2, hst]
      omega
    · rw [if_neg hc2, if_pos hfm] at e4
      rw [clipSamplesOf_eq, e6 hfm, if_pos rfl]
      rw [e4] at hmod
      omega
    · rw [if_neg hc2, if_neg hfm] at e4
      rw [e4] at hmod
      omega

/-- C10. After a successful `SetMode`, in either build and whatever the format flags
hold (for the DirectSound build the `int` product of length and rate is defined, for the
SDL build the device has at least one channel; the chunk bound is a positive `int`),
for every `bytes ≤ bufferSize_` `MixOutput` returns, and all it touches lies within the
accumulation buffer of `cap` ints allocated by `SetMode`, and below
`bufferSamples_ * channelCount`: the slots it zeroes and the slots it converts are those
below `clipSamples`, which is at most both; every region handed to a source
(`frames * channelCount` slots from the cursor) ends at or below `clipSamples`, as does
the final cursor; at most `bytes` bytes of the destination are written. Sources that
record what they are handed receive exactly these regions, and the memory of such a run
is the buffer zeroed below `clipSamples` and untouched elsewhere. -/
theorem MixOutput_in_bounds {S F : Type} (D : Int) (Mix : MixFn S) (useSDL : Bool)
    (env : Backend) (a0 b : Audio S F) (bufferLengthMSec mixRate : Int)
    (sixteenBit stereo interpolate : Bool) (bytes fuel : Nat)
    (hset : SetMode useSDL env a0 bufferLengthMSec mixRate sixteenBit stereo interpolate
      = (true, b))
    (hsdl : useSDL = true → 1 ≤ env.obtainedChannels)
    (hds : useSDL = false →
      Max bufferLengthMSec 50 * Clamp mixRate 11025 48000 < 2147483648)
    (hM0 : 0 < maxSamples b.mixRate_ D) (hM : maxSamples b.mixRate_ D < 2147483648)
    (hbytes : bytes ≤ b.bufferSize_)
    (hfuel : mixSamplesOf b.stereo_ b.sixteenBit_ bytes ≤ fuel) :
    ∃ r cap, MixOutput D Mix b bytes fuel = some r ∧ b.clipBuffer_ = some cap ∧
      r.clipSamples ≤ cap ∧
      r.clipSamples ≤ b.bufferSamples_ * channelCount b ∧
      (∀ q ∈ r.requests, q.1 + q.2 * channelCount b ≤ r.clipSamples) ∧
      r.clipPtr ≤ r.clipSamples ∧
      r.dest = (List.range r.clipSamples).map
        (fun i => if b.sixteenBit_ then convert16 (r.clip i) else convert8 (r.clip i)) ∧
      destBytesWritten b.sixteenBit_ r ≤ bytes ∧
      ∀ logs : List (List (Nat × Nat)),
        ∃ r2, MixOutput D recordMix (withSources b logs) bytes fuel = some r2 ∧
          r2.sources = logs.map (fun s => s ++ r.requests) ∧
          r2.clip = (fun i => if i < r.clipSamples then 0 else b.clipData i) := by
  obtain ⟨cap, hcap, hbs, hall⟩ := SetMode_capacity useSDL env a0 b bufferLengthMSec mixRate
    sixteenBit stereo interpolate hset hsdl hds
  obtain ⟨hclip, hclip2⟩ := hall bytes hbytes
  have hcs := clipSamplesOf_le b.sixteenBit_ bytes
  have hN := mixSamplesOf_mul_channels_le b.stereo_ b.sixteenBit_ bytes
  have hms := mixSamplesOf_le b.stereo_ b.sixteenBit_ bytes
  obtain ⟨r, hr, hptr, hreq⟩ := mixLoop_request_bounds Mix b.mixRate_ b.stereo_
    b.interpolate_ (maxSamples b.mixRate_ D) (mixSamplesOf b.stereo_ b.sixteenBit_ bytes)
    hM0 hM (by omega) fuel hfuel b.soundSources_ (clearedClip b bytes)
  have hcc : channelCount b = channelsOf b.stereo_ := rfl
  refine ⟨_, cap, MixOutput_of_mixLoop D Mix b bytes fuel r hr, hcap, hclip, hclip2, ?_, ?_,
    rfl, ?_, ?_⟩
  · intro q hq
    have := hreq q hq
    show _ ≤ clipSamplesOf b.sixteenBit_ bytes
    rw [hcc]
    omega
  · show r.clipPtr ≤ clipSamplesOf b.sixteenBit_ bytes
    omega
  · unfold destBytesWritten
    simp only [convertOutput, List.length_map, List.length_range]
    rw [clipSamplesOf_eq]
    cases b.sixteenBit_ <;> simp
    omega
  · intro logs
    obtain ⟨r2, hr2, hsrc, hmem⟩ := mixLoop_recorded b.mixRate_ b.stereo_ b.interpolate_
      (maxSamples b.mixRate_ D) (mixSamplesOf b.stereo_ b.sixteenBit_ bytes) hM0 hM
      (by omega) fuel hfuel logs (clearedClip b bytes)
    have hsame := mixLoop_requests_same Mix recordMix b.mixRate_ b.stereo_ b.interpolate_
      (maxSamples b.mixRate_ D) fuel (mixSamplesOf b.stereo_ b.sixteenBit_ bytes)
      ⟨b.soundSources_, clearedClip b bytes, 0, []⟩ ⟨logs, clearedClip b bytes, 0, []⟩ rfl rfl
    rw [hr, hr2] at hsame
    simp only [Option.map_some', Option.some.injEq, Prod.mk.injEq] at hsame
    refine ⟨_, MixOutput_of_mixLoop D recordMix (withSources b logs) bytes fuel r2 hr2, ?_, ?_⟩
    · show r2.sources = _
      rw [hsrc]
      show _ = logs.map (fun s => s ++ r.requests)
      rw [hsame.2]
    · show r2.clip = _
      rw [hmem]
      rfl

/-- C10, an instance: the engine after two SDL `SetMode` calls that holds stereo 16-bit
flags over a mono 8-bit buffer of 1024 bytes; a callback for the whole buffer stays
within the 1024 slots. -/
theorem MixOutput_in_bounds_witness :
    staleAudio.stereo_ = true ∧ staleAudio.sixteenBit_ = true ∧
    staleAudio.bufferSize_ = 1024 ∧
    ∃ r cap, MixOutput 100 rampMix staleAudio 1024 256 = some r ∧
      staleAudio.clipBuffer_ = some cap ∧
      r.clipSamples ≤ cap ∧
      r.clipSamples ≤ staleAudio.bufferSamples_ * channelCount staleAudio ∧
      (∀ q ∈ r.requests, q.1 + q.2 * channelCount staleAudio ≤ r.clipSamples) ∧
      r.clipPtr ≤ r.clipSamples ∧
      r.dest = (List.range r.clipSamples).map
        (fun i => if staleAudio.sixteenBit_ then convert16 (r.clip i)
          else convert8 (r.clip i)) ∧
      destBytesWritten staleAudio.sixteenBit_ r ≤ 1024 ∧
      ∀ logs : List (List (Nat × Nat)),
        ∃ r2, MixOutput 100 recordMix (withSources staleAudio logs) 1024 256 = some r2 ∧
          r2.sources = logs.map (fun s => s ++ r.requests) ∧
          r2.clip = (fun i => if i < r.clipSamples then 0 else staleAudio.clipData i) :=
  ⟨by decide, by decide, by decide,
    MixOutput_in_bounds 100 rampMix true (sdlAnswers 22050 AUDIO_U8 1 1024)
      (SetMode true (sdlAnswers 44100 AUDIO_S16SYS 2 2048) freshAudio 100 44100 true true
        false).2 staleAudio 100 22050 false false false 1024 256
      (Prod.ext (by decide) rfl) (fun _ => by decide) (fun h => absurd h (by decide))
      (by decide) (by decide) (by decide) (by decide)⟩

/-! ## Cursors of the playback thread -/

theorem and_high_mask (p k : Nat) (hp : p < 2 ^ 32) :
    p &&& (2 ^ k * (2 ^ (32 - k) - 1)) = 2 ^ k * (p / 2 ^ k) := by
  apply Nat.eq_of_testBit_eq
  intro j
  rw [Nat.testBit_and, Nat.testBit_mul_pow_two, Nat.testBit_mul_pow_two,
    Nat.testBit_two_pow_sub_one, ← Nat.shiftRight_eq_div_pow, Nat.testBit_shiftRight]
  by_cases h1 : j ≥ k
  · by_cases h2 : j < 32
    · have h3 : j - k < 32 - k := by omega
      have e : k + (j - k) = j := by omega
      simp [h1, h3, e]
    · have hf : p.testBit j = false := by
        apply Nat.testBit_lt_two_pow
        calc p < 2 ^ 32 := hp
          _ ≤ 2 ^ j := Nat.pow_le_pow_right (by norm_num) (by omega)
      have e : k + (j - k) = j := by omega
      simp [hf, e]
  · simp [h1]

/-- The mask `-((int)sampleSize_)` aligns a cursor down to the sample size. -/
theorem align_mask (p ss : Nat) (hp : p < 4294967296) (hss : ss = 1 ∨ ss = 2 ∨ ss = 4) :
    p &&& toUnsigned (-(toInt ss)) = p - p % ss := by
  rcases hss with rfl | rfl | rfl
  · have h := and_high_mask p 0 (by norm_num; exact hp)
    have e : toUnsigned (-(toInt 1)) = 4294967295 := by decide
    norm_num at h
    rw [e, h]
    omega
  · have h := and_high_mask p 1 (by norm_num; exact hp)
    have e : toUnsigned (-(toInt 2)) = 4294967294 := by decide
    norm_num at h
    rw [e, h]
    omega
  · have h := and_high_mask p 2 (by norm_num; exact hp)
    have e : toUnsigned (-(toInt 4)) = 4294967292 := by decide
    norm_num at h
    rw [e, h]
    omega

theorem span_mod (pc wc bs : Nat) (hpc : pc < bs) (hwc : wc < bs) :
    (pc + bs - wc) % bs = if wc ≤ pc then pc - wc else pc + bs - wc := by
  split_ifs with h
  · have e : pc + bs - wc = (pc - wc) + bs := by omega
    rw [e, Nat.add_mod_right, Nat.mod_eq_of_lt (by omega)]
  · exact Nat.mod_eq_of_lt (by omega)

theorem threadPass_eq (bs ss : Nat) (hw : BufferAnswers) (wc : Nat) :
    threadPass bs ss hw wc = threadPassFrom bs ss hw
      (if (if hw.status = DSBSTATUS_BUFFERLOST then hw.statusRestored else hw.status)
        &&& DSBSTATUS_PLAYING = 0 then 0 else wc) := rfl

theorem threadPassFrom_ok (bs ss : Nat) (hw : BufferAnswers) (wc : Nat)
    (hss : ss = 1 ∨ ss = 2 ∨ ss = 4) (hbs0 : 0 < bs) (hdvd : bs % ss = 0)
    (hbs : bs ≤ 2147483648) (hwc1 : wc % ss = 0) (hwc2 : wc < bs) :
    PassCursorsOk bs ss hw (threadPassFrom bs ss hw wc) := by
  have hp1 : hw.position % bs < bs := Nat.mod_lt _ hbs0
  have hmask := align_mask (hw.position % bs) ss (by omega) hss
  unfold threadPassFrom PassCursorsOk
  simp only [hmask]
  generalize hw.position % bs = pc1 at hp1 ⊢
  have hpc : pc1 - pc1 % ss < bs := by omega
  have hpcm : (pc1 - pc1 % ss) % ss = 0 := by
    rcases hss with rfl | rfl | rfl <;> omega
  generalize pc1 - pc1 % ss = pc at hpc hpcm ⊢
  have hspan := span_mod pc wc bs hpc hwc2
  by_cases hne : pc = wc
  · subst hne
    simp [hwc1, hwc2]
  · have hwb : (if toInt ((pc + 4294967296 - wc) % 4294967296) < 0 then
          toInt ((toUnsigned (toInt ((pc + 4294967296 - wc) % 4294967296)) + bs) % 4294967296)
        else toInt ((pc + 4294967296 - wc) % 4294967296)) = (((pc + bs - wc) % bs : Nat) : Int) := by
      rw [hspan]
      unfold toInt toUnsigned
      split_ifs <;> omega
    have hpos : 0 < (pc + bs - wc) % bs := by
      rw [hspan]
      split_ifs <;> omega
    have hmul : ((pc + bs - wc) % bs) % ss = 0 := by
      rw [hspan]
      rcases hss with rfl | rfl | rfl <;> split_ifs <;> omega
    simp only [ne_eq, hne, not_false_eq_true, if_true, hwb]
    have hun : toUnsigned (((pc + bs - wc) % bs : Nat) : Int) = (pc + bs - wc) % bs := by
      unfold toUnsigned
      have : (pc + bs - wc) % bs < bs := Nat.mod_lt _ hbs0
      omega
    have hfin : (if (wc + (pc + bs - wc) % bs) % 4294967296 ≥ bs then
          ((wc + (pc + bs - wc) % bs) % 4294967296 + 4294967296 - bs) % 4294967296
        else (wc + (pc + bs - wc) % bs) % 4294967296) = pc := by
      rw [hspan]
      split_ifs <;> omega
    cases hl : hw.lockOk
    · simp [hwc1, hwc2, hpos, hmul, hne]
    · simp only [if_true, hun, hfin]
      simp [hwc1, hwc2, hpos, hmul, hpc, hpcm, hne]

theorem threadPass_ok (bs ss : Nat) (hw : BufferAnswers) (wc : Nat)
    (hss : ss = 1 ∨ ss = 2 ∨ ss = 4) (hbs0 : 0 < bs) (hdvd : bs % ss = 0)
    (hbs : bs ≤ 2147483648) (hwc1 : wc % ss = 0) (hwc2 : wc < bs) :
    PassCursorsOk bs ss hw (threadPass bs ss hw wc) := by
  rw [threadPass_eq]
  apply threadPassFrom_ok bs ss hw _ hss hbs0 hdvd hbs
  · split_ifs <;> first | exact Nat.zero_mod _ | exact hwc1
  · split_ifs <;> first | exact hbs0 | exact hwc2

theorem threadPasses_ok (bs ss : Nat) (hss : ss = 1 ∨ ss = 2 ∨ ss = 4) (hbs0 : 0 < bs)
    (hdvd : bs % ss = 0) (hbs : bs ≤ 2147483648) :
    ∀ (answers : List BufferAnswers) (wc : Nat), wc % ss = 0 → wc < bs →
      List.Forall₂ (PassCursorsOk bs ss) answers (threadPasses bs ss answers wc) := by
  intro answers
  induction answers with
  | nil => intro wc _ _; exact List.Forall₂.nil
  | cons hw rest ih =>
    intro wc h1 h2
    have hp := threadPass_ok bs ss hw wc hss hbs0 hdvd hbs h1 h2
    exact List.Forall₂.cons hp (ih _ hp.2.2.2.2.2.2.1 hp.2.2.2.2.2.2.2)

/-- The buffer the playback thread receives: after a successful DirectSound `SetMode`
(the `int` product of length and rate being defined) every pass of the thread loop over
that buffer keeps the cursor invariant. -/
theorem ThreadFunction_after_SetMode {S F : Type} (env : Backend) (a b : Audio S F)
    (bl mr : Int) (sb st ip : Bool) (answers : List BufferAnswers)
    (hset : SetMode false env a bl mr sb st ip = (true, b))
    (hds : Max bl 50 * Clamp mr 11025 48000 < 2147483648) :
    b.bufferSize_ ≤ 8589932 ∧
      List.Forall₂ (PassCursorsOk b.bufferSize_ b.sampleSize_) answers
        (ThreadFunction b.bufferSize_ b.sampleSize_ answers) := by
  obtain ⟨h1, h2, h3, h4, _⟩ := SetMode_directSound_buffer env a b bl mr sb st ip hset hds
  exact ⟨h4, threadPasses_ok b.bufferSize_ b.sampleSize_ h1 h2 h3 (by omega) answers 0
    (Nat.zero_mod _) h2⟩

end Urho3D
